import Mathlib

/-!
Verification development for the forward-service webhook routing engine.

Shallow embedding of the core components:
- message splitter (forward_service/message_splitter.py)
- session store (forward_service/session_manager.py)
- processing lock (forward_service/repository.py, ProcessingSessionRepository)
- config resolver (forward_service/services/forwarder.py)
- dedup cache and callback orchestration (forward_service/routes/callback.py)

Python strings are modelled as lists of unicode code points (List Char);
byte sizes are UTF-8 byte counts, as in the source. Database tables are
modelled as lists of row records; SQLAlchemy scalar_one_or_none is modelled
as a partial extraction that errors on multiple rows.
-/

set_option maxHeartbeats 1000000

/-- UTF-8 byte count of a string, embedding get_string_bytes
(message_splitter.py line 36): len(s.encode(utf-8)). -/
def get_string_bytes (s : List Char) : Nat := (s.map Char.utf8Size).sum

/-- Embedding of Python str.split with a newline separator
(message.split used at message_splitter.py line 66). -/
def py_split_newline : List Char → List (List Char)
  | [] => [[]]
  | c :: rest =>
    if c = '\n' then [] :: py_split_newline rest
    else
      match py_split_newline rest with
      | [] => [[c]]
      | g :: gs => (c :: g) :: gs

/-- Embedding of a newline join over a list of lines
(the join calls at message_splitter.py lines 78, 99, 109). -/
def py_join_newline : List (List Char) → List Char
  | [] => []
  | [g] => g
  | g :: g2 :: gs => g ++ '\n' :: py_join_newline (g2 :: gs)

/-- Loop state of the character-level sub-split loop in _split_long_line
(message_splitter.py lines 123-125). -/
structure CharAcc where
  parts : List (List Char)
  current_chars : List Char
  current_bytes : Nat
deriving DecidableEq

/-- One iteration of the for-char loop of _split_long_line
(message_splitter.py lines 127-138). -/
def split_long_line_step (max_bytes : Nat) (acc : CharAcc) (char : Char) : CharAcc :=
  let char_bytes := Char.utf8Size char
  if acc.current_bytes + char_bytes > max_bytes then
    { parts := if acc.current_chars = [] then acc.parts else acc.parts ++ [acc.current_chars]
      current_chars := [char]
      current_bytes := char_bytes }
  else
    { acc with
      current_chars := acc.current_chars ++ [char]
      current_bytes := acc.current_bytes + char_bytes }

/-- Embedding of _split_long_line (message_splitter.py lines 114-144). -/
def split_long_line (line : List Char) (max_bytes : Nat) : List (List Char) :=
  if line = [] then [[]]
  else
    let acc := line.foldl (split_long_line_step max_bytes) ⟨[], [], 0⟩
    if acc.current_chars = [] then acc.parts else acc.parts ++ [acc.current_chars]

/-- Loop state of the line-packing loop in split_message_content
(message_splitter.py lines 65-68). -/
structure LineAcc where
  parts : List (List Char)
  current_part : List (List Char)
  current_bytes : Nat
deriving DecidableEq

/-- Appends the pending accumulated lines as one joined part, as done by
the save-current-part steps of split_message_content
(message_splitter.py lines 77-79 and 107-109). -/
def flush_current (acc : LineAcc) : List (List Char) :=
  if acc.current_part = [] then acc.parts else acc.parts ++ [py_join_newline acc.current_part]

/-- One iteration of the for-line loop of split_message_content
(message_splitter.py lines 70-105). -/
def split_message_step (max_bytes : Nat) (acc : LineAcc) (line : List Char) : LineAcc :=
  let line_bytes := get_string_bytes line
  if line_bytes > max_bytes then
    let split_lines := split_long_line line max_bytes
    { parts := flush_current acc ++ split_lines.dropLast
      current_part := [split_lines.getLastD []]
      current_bytes := get_string_bytes (split_lines.getLastD []) }
  else
    let additional_bytes := line_bytes + (if acc.current_part = [] then 0 else 1)
    if acc.current_bytes + additional_bytes > max_bytes then
      { parts := flush_current acc
        current_part := [line]
        current_bytes := line_bytes }
    else
      { acc with
        current_part := acc.current_part ++ [line]
        current_bytes := acc.current_bytes + additional_bytes }

/-- Embedding of split_message_content (message_splitter.py lines 41-111). -/
def split_message_content (message : List Char) (max_bytes : Nat) : List (List Char) :=
  if message = [] then [[]]
  else if get_string_bytes message ≤ max_bytes then [message]
  else flush_current ((py_split_newline message).foldl (split_message_step max_bytes) ⟨[], [], 0⟩)

/-- Platform hard maximum in bytes (message_splitter.py line 17). -/
def MAX_MESSAGE_BYTES : Nat := 2048

/-- Reserved byte budget for header and pagination (message_splitter.py line 20). -/
def HEADER_RESERVE_BYTES : Nat := 150

/-- Effective per-chunk body budget (message_splitter.py line 23). -/
def EFFECTIVE_MAX_BYTES : Nat := MAX_MESSAGE_BYTES - HEADER_RESERVE_BYTES

/-- Embedding of create_message_header (message_splitter.py lines 147-170). -/
def create_message_header (short_id : List Char) (project_name : Option (List Char))
    (part_number total_parts : Nat) : List Char :=
  if short_id = [] then []
  else
    let base_header :=
      match project_name with
      | some p =>
        if p = [] then "[#".toList ++ short_id ++ "]".toList
        else "[#".toList ++ short_id ++ " ".toList ++ p ++ "]".toList
      | none => "[#".toList ++ short_id ++ "]".toList
    if total_parts > 1 then
      base_header ++ " (".toList ++ (Nat.repr part_number).toList ++ "/".toList
        ++ (Nat.repr total_parts).toList ++ ")".toList
    else base_header

/-- Embedding of the SplitMessage dataclass (message_splitter.py lines 26-33). -/
structure SplitMessage where
  content : List Char
  part_number : Nat
  total_parts : Nat
  is_first : Bool
  is_last : Bool
deriving DecidableEq

/-- Embedding of split_and_format_message (message_splitter.py lines 173-222). -/
def split_and_format_message (message short_id : List Char)
    (project_name : Option (List Char)) (max_bytes : Nat) : List SplitMessage :=
  let content_parts := split_message_content message max_bytes
  let total_parts := content_parts.length
  content_parts.enum.map (fun ic =>
    let i := ic.1
    let content := ic.2
    let part_number := i + 1
    let header := create_message_header short_id project_name part_number total_parts
    { content := if header = [] then content else header ++ '\n' :: content
      part_number := part_number
      total_parts := total_parts
      is_first := decide (i = 0)
      is_last := decide (i = content_parts.length - 1) })

/-! Session store model (session_manager.py). -/

/-- Python truthiness of an optional string: None and the empty string are falsy. -/
def py_truthy : Option String → Bool
  | some s => s != ""
  | none => false

/-- Python string slicing s[:n]. -/
def py_str_take (n : Nat) (s : String) : String := String.mk (s.data.take n)

/-- Row of the user_sessions table (models.py class UserSession); created_at is
omitted (never read by the modelled operations), updated_at is a logical tick. -/
structure UserSession where
  id : Nat
  user_id : String
  chat_id : String
  bot_key : String
  session_id : String
  short_id : String
  last_message : String
  message_count : Nat
  current_project_id : Option String
  is_active : Bool
  updated_at : Nat
deriving DecidableEq

/-- The user_sessions table plus the autoincrement counter of the id primary key. -/
structure SessionDb where
  rows : List UserSession
  next_id : Nat
deriving DecidableEq

/-- SQLAlchemy errors surfaced by the modelled queries. -/
inductive SmError where
  | multipleResultsFound
deriving DecidableEq

/-- SQLAlchemy Result.scalar_one_or_none: none on zero rows, the row when
unique, MultipleResultsFound on two or more rows. -/
def scalar_one_or_none {α : Type} : List α → Except SmError (Option α)
  | [] => .ok none
  | [x] => .ok (some x)
  | _ :: _ :: _ => .error .multipleResultsFound

/-- Embedding of SessionManager.get_active_session (session_manager.py lines
55-79): select active rows of the triple, order by updated_at desc, limit 1. -/
def get_active_session (db : SessionDb) (user_id chat_id bot_key : String) :
    Option UserSession :=
  (db.rows.filter (fun r =>
      r.user_id == user_id && r.chat_id == chat_id && r.bot_key == bot_key
        && r.is_active)).foldl
    (fun best r =>
      match best with
      | none => some r
      | some b => if r.updated_at > b.updated_at then some r else best)
    none

/-- Embedding of SessionManager.record_session (session_manager.py lines
81-150). -/
def record_session (db : SessionDb) (now : Nat)
    (user_id chat_id bot_key session_id last_message : String)
    (current_project_id : Option String) : Except SmError (UserSession × SessionDb) :=
  let short_id := if session_id.length ≥ 8 then py_str_take 8 session_id else session_id
  let truncated_message := if last_message != "" then py_str_take 200 last_message else ""
  match scalar_one_or_none (db.rows.filter (fun r =>
      r.user_id == user_id && r.chat_id == chat_id && r.bot_key == bot_key
        && r.session_id == session_id)) with
  | .error e => .error e
  | .ok (some existing) =>
    let updated := { existing with
      last_message := truncated_message
      message_count := existing.message_count + 1
      is_active := true
      updated_at := now }
    .ok (updated,
      { db with rows := db.rows.map (fun r => if r.id == existing.id then updated else r) })
  | .ok none =>
    let deactivated := db.rows.map (fun r =>
      if r.user_id == user_id && r.chat_id == chat_id && r.bot_key == bot_key
          && r.is_active then
        { r with is_active := false }
      else r)
    let new_session : UserSession :=
      { id := db.next_id
        user_id := user_id
        chat_id := chat_id
        bot_key := bot_key
        session_id := session_id
        short_id := short_id
        last_message := truncated_message
        message_count := 1
        current_project_id := current_project_id
        is_active := true
        updated_at := now }
    .ok (new_session, { rows := deactivated ++ [new_session], next_id := db.next_id + 1 })

/-- Embedding of SessionManager.set_session_project (session_manager.py lines
187-244); the uuid4 drawn for the fallback session is a caller-supplied fresh id. -/
def set_session_project (db : SessionDb) (now : Nat)
    (user_id chat_id bot_key project_id fresh_session_id : String) : Bool × SessionDb :=
  let rowcount := (db.rows.filter (fun r =>
      r.user_id == user_id && r.chat_id == chat_id && r.bot_key == bot_key
        && r.is_active)).length
  if rowcount > 0 then
    (true,
      { db with rows := db.rows.map (fun r =>
          if r.user_id == user_id && r.chat_id == chat_id && r.bot_key == bot_key
              && r.is_active then
            { r with current_project_id := some project_id, updated_at := now }
          else r) })
  else
    let new_session : UserSession :=
      { id := db.next_id
        user_id := user_id
        chat_id := chat_id
        bot_key := bot_key
        session_id := fresh_session_id
        short_id := py_str_take 8 fresh_session_id
        last_message := "(项目切换)"
        message_count := 0
        current_project_id := some project_id
        is_active := true
        updated_at := now }
    (true, { rows := db.rows ++ [new_session], next_id := db.next_id + 1 })

/-- Embedding of SessionManager.reset_session (session_manager.py lines
246-274). -/
def reset_session (db : SessionDb) (user_id chat_id bot_key : String) :
    Bool × SessionDb :=
  let rowcount := (db.rows.filter (fun r =>
      r.user_id == user_id && r.chat_id == chat_id && r.bot_key == bot_key
        && r.is_active)).length
  (rowcount > 0,
    { db with rows := db.rows.map (fun r =>
        if r.user_id == user_id && r.chat_id == chat_id && r.bot_key == bot_key
            && r.is_active then
          { r with is_active := false }
        else r) })

/-- Embedding of SessionManager.change_session (session_manager.py lines
276-351): exact match on short_id first, then prefix match on session_id (the
SQL like pattern), deactivate siblings, activate the target. -/
def change_session (db : SessionDb) (now : Nat) (user_id chat_id short_id : String)
    (bot_key : Option String) : Except SmError (Option UserSession × SessionDb) :=
  let base := fun (r : UserSession) =>
    r.user_id == user_id && r.chat_id == chat_id
      && (if py_truthy bot_key then r.bot_key == bot_key.getD "" else true)
  match scalar_one_or_none (db.rows.filter (fun r => base r && r.short_id == short_id)) with
  | .error e => .error e
  | .ok target_exact =>
    let target_result :=
      match target_exact with
      | some t => Except.ok (some t)
      | none =>
        scalar_one_or_none (db.rows.filter (fun r =>
          base r && short_id.data.isPrefixOf r.session_id.data))
    match target_result with
    | .error e => .error e
    | .ok none => .ok (none, db)
    | .ok (some target) =>
      let activated := { target with is_active := true, updated_at := now }
      .ok (some activated,
        { db with rows := db.rows.map (fun r =>
            if r.id == target.id then activated
            else if r.user_id == user_id && r.chat_id == chat_id && r.is_active
                && r.id != target.id
                && (if py_truthy bot_key then r.bot_key == bot_key.getD "" else true) then
              { r with is_active := false }
            else r) })

/-- A SessionManager call, for stating invariants over call sequences. -/
inductive SessionOp where
  | record (user_id chat_id bot_key session_id last_message : String)
      (current_project_id : Option String)
  | reset (user_id chat_id bot_key : String)
  | change (user_id chat_id short_id : String) (bot_key : Option String)
  | set_project (user_id chat_id bot_key project_id fresh_session_id : String)
deriving DecidableEq

/-- Applies one SessionManager call; a raised MultipleResultsFound rolls the
transaction back, leaving the table unchanged. -/
def applySessionOp (db : SessionDb) (now : Nat) : SessionOp → SessionDb
  | .record u c b sid msg proj =>
    match record_session db now u c b sid msg proj with
    | .ok (_, db2) => db2
    | .error _ => db
  | .reset u c b => (reset_session db u c b).2
  | .change u c sid b =>
    match change_session db now u c sid b with
    | .ok (_, db2) => db2
    | .error _ => db
  | .set_project u c b p fresh => (set_session_project db now u c b p fresh).2

/-- Runs a sequence of SessionManager calls at increasing logical times. -/
def runSessionOps (db : SessionDb) (now : Nat) : List SessionOp → SessionDb
  | [] => db
  | op :: ops => runSessionOps (applySessionOp db now op) (now + 1) ops

/-- Number of active rows of the (user_id, chat_id, bot_key) triple. -/
def active_count (db : SessionDb) (user_id chat_id bot_key : String) : Nat :=
  (db.rows.filter (fun r =>
    r.user_id == user_id && r.chat_id == chat_id && r.bot_key == bot_key
      && r.is_active)).length

/-- Well-formedness of the table: primary-key ids are distinct and below the
autoincrement counter. -/
def SessionDbWF (db : SessionDb) : Prop :=
  (db.rows.map (fun r => r.id)).Nodup ∧ ∀ r ∈ db.rows, r.id < db.next_id

/-- Side condition under which record_session preserves the single-active
invariant: a record call whose session_id already exists for the triple must
target the currently active row. -/
def RecordFreshOrActive (db : SessionDb) : SessionOp → Prop
  | .record u c b sid _ _ =>
    ∀ r ∈ db.rows, r.user_id = u → r.chat_id = c → r.bot_key = b →
      r.session_id = sid → r.is_active = true
  | _ => True

/-- The side condition holds at every step along the sequence. -/
def OpsOK (db : SessionDb) (now : Nat) : List SessionOp → Prop
  | [] => True
  | op :: ops => RecordFreshOrActive db op ∧ OpsOK (applySessionOp db now op) (now + 1) ops

/-- The active-row predicate of the monitored triple. -/
def active_for (user_id chat_id bot_key : String) (r : UserSession) : Bool :=
  r.user_id == user_id && r.chat_id == chat_id && r.bot_key == bot_key && r.is_active

/-! Processing lock model (repository.py, ProcessingSessionRepository). -/

/-- Row of the processing_sessions table (models.py class ProcessingSession);
session_key carries a UNIQUE constraint. -/
structure ProcessingSession where
  id : Nat
  session_key : String
  user_id : String
  chat_id : String
  bot_key : String
  message : String
  started_at : Int
deriving DecidableEq

/-- The processing_sessions table plus the autoincrement id counter. -/
structure LockDb where
  rows : List ProcessingSession
  next_id : Nat
deriving DecidableEq

/-- Embedding of ProcessingSessionRepository.try_acquire (repository.py lines
1293-1331): an insert guarded by the UNIQUE constraint on session_key; a
constraint violation rolls back and returns False. -/
def try_acquire (db : LockDb) (now : Int)
    (session_key user_id chat_id bot_key message : String) : Bool × LockDb :=
  if db.rows.any (fun r => r.session_key == session_key) then (false, db)
  else
    let record : ProcessingSession :=
      { id := db.next_id
        session_key := session_key
        user_id := user_id
        chat_id := chat_id
        bot_key := bot_key
        message := if message != "" then py_str_take 500 message else ""
        started_at := now }
    (true, { rows := db.rows ++ [record], next_id := db.next_id + 1 })

/-- Embedding of ProcessingSessionRepository.release (repository.py lines
1333-1348): delete by session_key, report whether a row was removed. -/
def release (db : LockDb) (session_key : String) : Bool × LockDb :=
  let remaining := db.rows.filter (fun r => !(r.session_key == session_key))
  (remaining.length < db.rows.length, { db with rows := remaining })

/-- Embedding of ProcessingSessionRepository.get_lock_info (repository.py lines
1350-1364); the UNIQUE constraint keeps at most one row per key, so the select
returns the first (only) match. -/
def get_lock_info (db : LockDb) (session_key : String) : Option ProcessingSession :=
  db.rows.find? (fun r => r.session_key == session_key)

/-- Embedding of ProcessingSessionRepository.force_release (repository.py lines
1366-1381): same deletion as release. -/
def force_release (db : LockDb) (session_key : String) : Bool × LockDb :=
  release db session_key

/-- Embedding of ProcessingSessionRepository.cleanup_stale (repository.py lines
1383-1407): delete rows older than the cutoff, count them. -/
def cleanup_stale (db : LockDb) (now : Int) (timeout_seconds : Int) : Nat × LockDb :=
  let cutoff := now - timeout_seconds
  let remaining := db.rows.filter (fun r => !(r.started_at < cutoff))
  (db.rows.length - remaining.length, { db with rows := remaining })

/-- A lock on the key is held when a row with that session_key exists. -/
def lock_held (db : LockDb) (session_key : String) : Bool :=
  db.rows.any (fun r => r.session_key == session_key)

/-! Config resolver model (services/forwarder.py and repository.py,
UserProjectConfigRepository). -/

/-- Row of the user_projects table (models.py class UserProjectConfig), unique
on (bot_key, chat_id, project_id); created_at is a logical timestamp. -/
structure UserProjectConfig where
  id : Nat
  bot_key : String
  chat_id : String
  project_id : String
  project_name : Option String
  url_template : String
  api_key : Option String
  timeout : Nat
  is_default : Bool
  enabled : Bool
  created_at : Nat
deriving DecidableEq

/-- The ForwardConfig dataclass (forwarder.py lines 37-48). -/
structure ForwardConfig where
  target_url : String
  api_key : Option String
  timeout : Nat
  project_id : Option String
  project_name : Option String
deriving DecidableEq

/-- Bot-level configuration, flattened from config.py BotInfo and its
forward_config (target_url, api_key, timeout) plus the registration flags
read by the callback route. -/
structure BotInfo where
  bot_key : String
  name : String
  target_url : String
  api_key : Option String
  timeout : Nat
  is_registered : Bool
  is_configured : Bool
deriving DecidableEq

/-- Embedding of UserProjectConfigRepository.get_by_project_id (repository.py
lines 789-812). -/
def get_by_project_id (projects : List UserProjectConfig)
    (bot_key chat_id project_id : String) : Except SmError (Option UserProjectConfig) :=
  scalar_one_or_none (projects.filter (fun p =>
    p.bot_key == bot_key && p.chat_id == chat_id && p.project_id == project_id))

/-- Embedding of UserProjectConfigRepository.get_default_project (repository.py
lines 846-868). -/
def get_default_project (projects : List UserProjectConfig)
    (bot_key chat_id : String) : Except SmError (Option UserProjectConfig) :=
  scalar_one_or_none (projects.filter (fun p =>
    p.bot_key == bot_key && p.chat_id == chat_id && p.is_default && p.enabled))

/-- The ORDER BY key of get_user_projects: is_default DESC, created_at ASC
(repository.py lines 839-842). -/
def project_order (a b : UserProjectConfig) : Prop :=
  (if a.is_default then 0 else 1) < (if b.is_default then (0 : Nat) else 1) ∨
    ((if a.is_default then (0 : Nat) else 1) = (if b.is_default then 0 else 1) ∧
      a.created_at ≤ b.created_at)

instance : DecidableRel project_order := fun a b => by
  unfold project_order
  infer_instance

instance : IsTotal UserProjectConfig project_order :=
  ⟨by intro a b; unfold project_order; omega⟩

instance : IsTrans UserProjectConfig project_order :=
  ⟨by intro a b c; unfold project_order; omega⟩

/-- Embedding of UserProjectConfigRepository.get_user_projects (repository.py
lines 814-844): filter by bot and chat (and enabled when enabled_only), sorted
by the ORDER BY clause. -/
def get_user_projects (projects : List UserProjectConfig)
    (bot_key chat_id : String) (enabled_only : Bool) : List UserProjectConfig :=
  List.insertionSort project_order (projects.filter (fun p =>
    p.bot_key == bot_key && p.chat_id == chat_id
      && (if enabled_only then p.enabled else true)))

/-- The two ValueError exits of get_forward_config_for_user (forwarder.py lines
133 and 138); both messages contain the no-available-project pattern matched at
callback.py line 682. -/
inductive ResolveError where
  | noBotAndNoProjects
  | botHasNoUrl
deriving DecidableEq

/-- ForwardConfig built from a project row, as in the returns of
get_forward_config_for_user steps 1-3 (forwarder.py lines 80-124). -/
def mk_config_from_project (p : UserProjectConfig) : ForwardConfig :=
  { target_url := p.url_template
    api_key := p.api_key
    timeout := p.timeout
    project_id := some p.project_id
    project_name := p.project_name }

/-- Steps 2 and 3 of the try block of get_forward_config_for_user (forwarder.py
lines 88-124): the default project, else the single enabled project, else the
first entry of the sorted project list; none when no project exists. Any
SQLAlchemy error propagates to the except handler. -/
def project_selection_rest (projects : List UserProjectConfig)
    (bot_key chat_id : String) : Except SmError (Option ForwardConfig) :=
  match get_default_project projects bot_key chat_id with
  | .error e => .error e
  | .ok (some default_project) => .ok (some (mk_config_from_project default_project))
  | .ok none =>
    match get_user_projects projects bot_key chat_id true with
    | [] => .ok none
    | [auto_project] => .ok (some (mk_config_from_project auto_project))
    | first_project :: _ :: _ => .ok (some (mk_config_from_project first_project))

/-- The body of the try block of get_forward_config_for_user (forwarder.py
lines 70-124): step 1 (the session project when set and enabled), else the
rest of the chain. -/
def project_selection (projects : List UserProjectConfig)
    (bot_key chat_id : String) (current_project_id : Option String) :
    Except SmError (Option ForwardConfig) :=
  match (if py_truthy current_project_id then
      get_by_project_id projects bot_key chat_id (current_project_id.getD "")
    else .ok none) with
  | .error e => .error e
  | .ok step1 =>
    match (match step1 with
      | some project =>
        if project.enabled then some (mk_config_from_project project) else none
      | none => none) with
    | some cfg => .ok (some cfg)
    | none => project_selection_rest projects bot_key chat_id

/-- The bot-level fallback of get_forward_config_for_user (forwarder.py lines
129-147): the bot configuration when a bot with a target URL exists, else the
two ValueError exits. -/
def bot_fallback (bot : Option BotInfo) : Except ResolveError ForwardConfig :=
  match bot with
  | none => .error .noBotAndNoProjects
  | some b =>
    if b.target_url = "" then .error .botHasNoUrl
    else
      .ok
        { target_url := b.target_url
          api_key := b.api_key
          timeout := b.timeout
          project_id := none
          project_name := none }

/-- Embedding of get_forward_config_for_user (forwarder.py lines 51-147): the
try block result when it yields a config; otherwise (no project, or any
exception, caught at line 126) the bot-level fallback of lines 129-147. -/
def get_forward_config_for_user (projects : List UserProjectConfig)
    (bot : Option BotInfo) (bot_key chat_id : String)
    (current_project_id : Option String) : Except ResolveError ForwardConfig :=
  match project_selection projects bot_key chat_id current_project_id with
  | .ok (some cfg) => .ok cfg
  | .ok none | .error _ => bot_fallback bot

/-- The earliest-created project of a list, as the specification words rule 4
of the priority chain. -/
def earliest_created : List UserProjectConfig → Option UserProjectConfig
  | [] => none
  | p :: ps =>
    match earliest_created ps with
    | none => some p
    | some q => if p.created_at < q.created_at then some p else some q

/-- Rules 2, 3 and 4 of the priority chain as the specification states them:
the enabled default project, else the unique enabled project, else the
earliest-created enabled project when several exist. -/
def spec_choice_rest (projects : List UserProjectConfig)
    (bot_key chat_id : String) : Option UserProjectConfig :=
  match projects.find? (fun p => p.bot_key == bot_key && p.chat_id == chat_id
      && p.is_default && p.enabled) with
  | some p => some p
  | none =>
    match projects.filter (fun p => p.bot_key == bot_key && p.chat_id == chat_id
        && p.enabled) with
    | [p] => some p
    | [] => none
    | p :: q :: rest => earliest_created (p :: q :: rest)

/-- Rules 1 to 4 of the priority chain as the specification states them:
the enabled project pinned by the session, else the rest of the chain. -/
def spec_project_choice (projects : List UserProjectConfig)
    (bot_key chat_id : String) (session_project_id : Option String) :
    Option UserProjectConfig :=
  match (if py_truthy session_project_id then
      projects.find? (fun p => p.bot_key == bot_key && p.chat_id == chat_id
        && p.project_id == (session_project_id.getD "") && p.enabled)
    else none) with
  | some p => some p
  | none => spec_choice_rest projects bot_key chat_id

/-- The configuration-resolution priority chain exactly as the specification
states it (spec section 4.3), written independently of the code: (1) enabled
project matching the session-pinned id, (2) enabled default project, (3) the
unique enabled project, (4) the earliest-created enabled project, (5) the
bot-level target URL, (6) no-forward-target error. -/
def resolve_spec (projects : List UserProjectConfig) (bot : Option BotInfo)
    (bot_key chat_id : String) (session_project_id : Option String) :
    Except ResolveError ForwardConfig :=
  match spec_project_choice projects bot_key chat_id session_project_id with
  | some p => .ok (mk_config_from_project p)
  | none => bot_fallback bot

/-- Database invariants of the user_projects table assumed by the resolver
equivalence: distinct rows, uniqueness of (bot_key, chat_id, project_id), at
most one enabled default per (bot_key, chat_id), and distinct created_at
among the enabled rows of a (bot_key, chat_id). -/
def ProjectInvariants (projects : List UserProjectConfig) : Prop :=
  projects.Nodup ∧
  (∀ p ∈ projects, ∀ q ∈ projects, p.bot_key = q.bot_key → p.chat_id = q.chat_id →
    p.project_id = q.project_id → p = q) ∧
  (∀ p ∈ projects, ∀ q ∈ projects, p.bot_key = q.bot_key → p.chat_id = q.chat_id →
    p.is_default = true → q.is_default = true → p.enabled = true → q.enabled = true →
    p = q) ∧
  (∀ p ∈ projects, ∀ q ∈ projects, p.bot_key = q.bot_key → p.chat_id = q.chat_id →
    p.enabled = true → q.enabled = true → p.created_at = q.created_at → p = q)

/-! Dedup cache model (routes/callback.py lines 55-89). -/

/-- Dedup TTL (callback.py line 59). -/
def _DEDUP_TTL_SECONDS : Int := 120

/-- Lazy-eviction threshold (callback.py line 60). -/
def _DEDUP_CLEANUP_THRESHOLD : Nat := 500

/-- Association-list lookup of a Python dict keyed by strings. -/
def dict_lookup (cache : List (String × Int)) (k : String) : Option Int :=
  (cache.find? (fun e => e.1 == k)).map (fun e => e.2)

/-- Association-list assignment of a Python dict: replace or append. -/
def dict_insert (cache : List (String × Int)) (k : String) (v : Int) :
    List (String × Int) :=
  if cache.any (fun e => e.1 == k) then
    cache.map (fun e => if e.1 == k then (k, v) else e)
  else cache ++ [(k, v)]

/-- Association-list deletion of a Python dict key. -/
def dict_remove (cache : List (String × Int)) (k : String) : List (String × Int) :=
  cache.filter (fun e => !(e.1 == k))

/-- Embedding of _make_dedup_key (callback.py lines 63-69); the sha256 digest
is an abstract function supplied by the environment. -/
def _make_dedup_key (sha256_hex : String → String)
    (bot_key chat_id content : String) (msg_id : Option String) : String :=
  match msg_id with
  | some m => "id:" ++ bot_key ++ ":" ++ chat_id ++ ":" ++ m
  | none => "hash:" ++ sha256_hex (bot_key ++ "|" ++ chat_id ++ "|" ++ content.trim)

/-- Embedding of _is_duplicate_message (callback.py lines 72-79): true while
the stored expiry lies in the future; an expired entry is deleted. -/
def _is_duplicate_message (cache : List (String × Int)) (dedup_key : String)
    (now : Int) : Bool × List (String × Int) :=
  match dict_lookup cache dedup_key with
  | some expiry =>
    if expiry > now then (true, cache) else (false, dict_remove cache dedup_key)
  | none => (false, cache)

/-- Embedding of _mark_message_processed (callback.py lines 82-89): store the
expiry, then lazily evict expired entries past the size threshold. -/
def _mark_message_processed (cache : List (String × Int)) (dedup_key : String)
    (now : Int) : List (String × Int) :=
  let cache2 := dict_insert cache dedup_key (now + _DEDUP_TTL_SECONDS)
  if cache2.length ≥ _DEDUP_CLEANUP_THRESHOLD then
    cache2.filter (fun e => !(e.2 ≤ now))
  else cache2

/-! Processing-key computation. The functions get_effective_user and
compute_processing_key are imported by routes/callback.py from
forward_service.session_manager but are absent from
src/forward_service/session_manager.py; they are modelled from the
specification, pinned by src/tests/test_processing_session.py. -/

/-- Modelled from the spec: get_effective_user (missing from
src/forward_service/session_manager.py; used at callback.py line 335).
Group chats share one session identity (the chat id); direct chats use the
sender id (spec section 4.4; tests lines 30-50 of
tests/test_processing_session.py). -/
def get_effective_user (user_id chat_id chat_type : String) : String :=
  if chat_type = "group" then chat_id else user_id

/-- Modelled from the spec: compute_processing_key (missing from
src/forward_service/session_manager.py; used at callback.py lines 564-566).
The known agent session id when truthy (empty string counts as absent),
else chat_id:bot_key for group chats, else user_id:bot_key (spec section
4.4; tests lines 55-110 of tests/test_processing_session.py). -/
def compute_processing_key (session_id : Option String)
    (user_id chat_id bot_key chat_type : String) : String :=
  if py_truthy session_id then session_id.getD ""
  else if chat_type = "group" then chat_id ++ ":" ++ bot_key
  else user_id ++ ":" ++ bot_key

/-! Orchestration model of handle_callback (routes/callback.py lines 115-817).
Collaborator calls (config lookups, access checks, command predicates, regex
parsing, the agent HTTP call, the platform send) are abstracted into an
environment record; the durable state (dedup cache, lock table, session
table, project table) is threaded explicitly, together with counters of the
send_reply invocations and forward attempts observed during the run. -/

/-- The AgentResult dataclass (forwarder.py lines 27-34). -/
structure AgentResult where
  reply : String
  msg_type : String
  session_id : Option String
  project_id : Option String
  project_name : Option String
deriving DecidableEq

/-- Observable behavior of the forward_to_agent_with_user_project call at
callback.py line 668: a result (or None), a ValueError whose message matches
the no-project patterns of line 682, a ValueError that does not, or any other
exception. -/
inductive ForwardBehavior where
  | returns (result : Option AgentResult)
  | raisesValueErrorNoProject
  | raisesValueErrorOther
  | raisesOther
deriving DecidableEq

/-- Command kinds of SLASH_COMMANDS (session_manager.py lines 22-46). -/
inductive SlashKind where
  | list
  | reset
  | change
  | ping
  | status
  | help
  | bots
  | bot
  | pending
  | recent
  | errors
  | health
deriving DecidableEq

/-- Parse result of parse_slash_command (session_manager.py lines 353-387). -/
structure SlashCmd where
  kind : SlashKind
  arg : Option String
  extra : Option String
deriving DecidableEq

/-- The normalized inbound callback payload read at callback.py lines 140-149
and 272-276: bot_key is the webhook-url extraction result, msg_id the
msgid/msg_id/message_id chain of _make_dedup_key, content and quoted_short_id
the extract_content results. -/
structure CallbackData where
  chat_id : String
  chat_type : String
  msg_type : String
  from_user_id : String
  from_user_alias : String
  bot_key : Option String
  msg_id : Option String
  content : Option String
  has_images : Bool
  quoted_short_id : Option String

/-- Environment of collaborator behaviors for one callback run. auth_ok covers
lines 131-134; resolve_bot_for_key summarizes the lookup-or-auto-create of
lines 182-207; get_bot and default_bot_key the fallback of lines 209-221;
lock_raises the except arm of line 625. -/
structure Env where
  auth_ok : Bool
  resolve_bot_for_key : String → Option BotInfo
  default_bot_key : Option String
  get_bot : String → Option BotInfo
  check_access : BotInfo → Bool
  is_admin : Bool
  is_bot_command : String → Bool
  is_project_command : String → Bool
  is_tunnel_command : String → Bool
  parse_slash_command : String → Option SlashCmd
  sha256_hex : String → String
  lock_raises : Bool
  forward : ForwardBehavior
  send_ok : Bool

/-- Terminal outcome of one callback run, named after the errmsg strings
returned by handle_callback. internalError is the top-level except arm of
lines 805-817 (errcode -1, no reply sent). -/
inductive Outcome where
  | unauthorized
  | ignoredEvent
  | noBotConfig
  | accessDenied
  | emptyContent
  | botCommand
  | registerHelp
  | projectCommand
  | tunnelCommand
  | slashHandled
  | permissionDenied
  | duplicate
  | noTargetHelp
  | sessionBusy
  | lockError
  | noProjectConfigured
  | forwardFailed
  | ok
  | internalError
deriving DecidableEq

/-- Durable state threaded through a run, plus instrumentation: replies counts
send_reply invocations, forwards counts forward attempts, acquired_keys the
processing keys acquired by try_acquire inserts during the run. -/
structure HandlerState where
  dedup : List (String × Int)
  locks : LockDb
  sessions : SessionDb
  projects : List UserProjectConfig
  replies : Nat
  forwards : Nat
  acquired_keys : List String
deriving DecidableEq

/-- One send_reply invocation to the originating chat. -/
def do_send_reply (st : HandlerState) : HandlerState :=
  { st with replies := st.replies + 1 }

/-- Lines 131-223 of handle_callback: auth check, ignored event types, bot
resolution with default-bot fallback; one reply when no bot resolves. -/
def stage_auth_event_bot (env : Env) (input : CallbackData) (st : HandlerState) :
    (HandlerState × Outcome) ⊕ (HandlerState × BotInfo) :=
  if !env.auth_ok then .inl (st, .unauthorized)
  else if input.msg_type == "event" || input.msg_type == "enter_chat" then
    .inl (st, .ignoredEvent)
  else
    let bot0 := match input.bot_key with
      | some k => if k != "" then env.resolve_bot_for_key k else none
      | none => none
    match bot0 with
    | some b => .inr (st, b)
    | none =>
      match (if py_truthy env.default_bot_key then
          env.get_bot (env.default_bot_key.getD "") else none) with
      | some b => .inr (st, b)
      | none => .inl (do_send_reply st, .noBotConfig)

/-- Lines 225-270 of handle_callback: access control with default-bot retry;
each denial path sends exactly one reply. -/
def stage_access (env : Env) (input : CallbackData) (st : HandlerState)
    (bot : BotInfo) : (HandlerState × Outcome) ⊕ (HandlerState × BotInfo) :=
  let allowed := if !bot.is_registered then true else env.check_access bot
  if allowed then .inr (st, bot)
  else if (match env.default_bot_key with
      | some dk => bot.bot_key != dk
      | none => true) then
    match (match env.default_bot_key with
      | some dk => env.get_bot dk
      | none => none) with
    | some default_bot =>
      if env.check_access default_bot then .inr (st, default_bot)
      else .inl (do_send_reply st, .accessDenied)
    | none => .inl (do_send_reply st, .accessDenied)
  else .inl (do_send_reply st, .accessDenied)

/-- Lines 272-332 of handle_callback: empty-content drop, then the bot,
register-help, project and tunnel command branches, one reply each. -/
def stage_content_commands (env : Env) (input : CallbackData) (st : HandlerState)
    (bot : BotInfo) : (HandlerState × Outcome) ⊕ HandlerState :=
  if !(py_truthy input.content) && !input.has_images then .inl (st, .emptyContent)
  else if py_truthy input.content && env.is_bot_command (input.content.getD "") then
    .inl (do_send_reply st, .botCommand)
  else if !bot.is_configured && !bot.is_registered then
    .inl (do_send_reply st, .registerHelp)
  else if py_truthy input.content && env.is_project_command (input.content.getD "") then
    .inl (do_send_reply st, .projectCommand)
  else if py_truthy input.content && env.is_tunnel_command (input.content.getD "") then
    .inl (do_send_reply st, .tunnelCommand)
  else .inr st

/-- Lines 334-503 of handle_callback: effective user and the slash-command
dispatch. A change with a trailing message switches the session and continues
with the remaining text as content; a change_session MultipleResultsFound
escapes to the top-level handler. -/
def stage_slash (env : Env) (input : CallbackData) (tick : Nat) (st : HandlerState)
    (bot : BotInfo) :
    (HandlerState × Outcome) ⊕ (HandlerState × String × Option String) :=
  let effective_user := get_effective_user input.from_user_id input.chat_id input.chat_type
  if py_truthy input.content then
    match env.parse_slash_command (input.content.getD "") with
    | none => .inr (st, effective_user, input.content)
    | some cmd =>
      match cmd.kind with
      | .list => .inl (do_send_reply st, .slashHandled)
      | .reset =>
        let st2 := { st with
          sessions := (reset_session st.sessions effective_user input.chat_id
            bot.bot_key).2 }
        .inl (do_send_reply st2, .slashHandled)
      | .change =>
        match change_session st.sessions tick effective_user input.chat_id
            (cmd.arg.getD "") (some bot.bot_key) with
        | .error _ => .inl (st, .internalError)
        | .ok (none, s2) =>
          .inl (do_send_reply { st with sessions := s2 }, .slashHandled)
        | .ok (some _, s2) =>
          if py_truthy cmd.extra then .inr ({ st with sessions := s2 }, effective_user, cmd.extra)
          else .inl (do_send_reply { st with sessions := s2 }, .slashHandled)
      | .ping =>
        if !env.is_admin then .inl (do_send_reply st, .permissionDenied)
        else .inl (do_send_reply st, .slashHandled)
      | .status =>
        if !env.is_admin then .inl (do_send_reply st, .permissionDenied)
        else .inl (do_send_reply st, .slashHandled)
      | .help => .inl (do_send_reply st, .slashHandled)
      | _ =>
        if !env.is_admin then .inl (do_send_reply st, .permissionDenied)
        else .inl (do_send_reply st, .slashHandled)
  else .inr (st, effective_user, input.content)

/-- Lines 518-533 of handle_callback: active session lookup, then the dedup
check and marking. A duplicate is dropped with no reply. -/
def stage_session_dedup_core (env : Env) (input : CallbackData) (now : Int)
    (st : HandlerState) (bot : BotInfo) (effective_user : String)
    (content : Option String) (quoted_session : Option UserSession) :
    (HandlerState × Outcome) ⊕ (HandlerState × Option String × Option String) :=
  let active_session := match quoted_session with
    | some qs => some qs
    | none => get_active_session st.sessions effective_user input.chat_id bot.bot_key
  let current_session_id := active_session.map (fun s => s.session_id)
  let current_project_id := active_session.bind (fun s => s.current_project_id)
  let dedup_key := _make_dedup_key env.sha256_hex bot.bot_key input.chat_id
    (content.getD "") input.msg_id
  let dup := _is_duplicate_message st.dedup dedup_key now
  if dup.1 then .inl ({ st with dedup := dup.2 }, .duplicate)
  else
    .inr ({ st with dedup := _mark_message_processed dup.2 dedup_key now },
      current_session_id, current_project_id)

/-- Lines 505-533 of handle_callback: quoted-reply session switch (a
change_session error escapes to the top level), then the core lookup and
dedup step. -/
def stage_session_dedup (env : Env) (input : CallbackData) (now : Int) (tick : Nat)
    (st : HandlerState) (bot : BotInfo) (effective_user : String)
    (content : Option String) :
    (HandlerState × Outcome) ⊕ (HandlerState × Option String × Option String) :=
  if py_truthy input.quoted_short_id then
    match change_session st.sessions tick effective_user input.chat_id
        (input.quoted_short_id.getD "") (some bot.bot_key) with
    | .error _ => .inl (st, .internalError)
    | .ok (some qs, s2) =>
      stage_session_dedup_core env input now { st with sessions := s2 } bot
        effective_user content (some qs)
    | .ok (none, s2) =>
      stage_session_dedup_core env input now { st with sessions := s2 } bot
        effective_user content none
  else stage_session_dedup_core env input now st bot effective_user content none

/-- Lines 536-635 of handle_callback: the no-target help exit, the processing
key, and the lock acquisition with stale takeover; busy and lock-exception
exits send one reply each. The pass-through arm of lines 622-624 reports the
lock as acquired without inserting a row. -/
def stage_target_lock (env : Env) (input : CallbackData) (now : Int)
    (st : HandlerState) (bot : BotInfo) (content : Option String)
    (current_session_id : Option String) :
    (HandlerState × Outcome) ⊕ (HandlerState × String × Bool) :=
  if bot.target_url = ""
      && decide (get_user_projects st.projects bot.bot_key input.chat_id true = []) then
    .inl (do_send_reply st, .noTargetHelp)
  else
    let processing_key := compute_processing_key current_session_id input.from_user_id
      input.chat_id bot.bot_key input.chat_type
    let message := if py_truthy content then content.getD "" else "(image)"
    if env.lock_raises then .inl (do_send_reply st, .lockError)
    else
      let acq1 := try_acquire st.locks now processing_key input.from_user_id
        input.chat_id bot.bot_key message
      if acq1.1 then
        let st2 := { st with
          locks := acq1.2
          acquired_keys := st.acquired_keys ++ [processing_key] }
        .inr (st2, processing_key, true)
      else
        match get_lock_info acq1.2 processing_key with
        | some lock_info =>
          if now - lock_info.started_at > 300 then
            let rel := force_release acq1.2 processing_key
            let acq2 := try_acquire rel.2 now processing_key input.from_user_id
              input.chat_id bot.bot_key message
            if acq2.1 then
              let st2 := { st with
                locks := acq2.2
                acquired_keys := st.acquired_keys ++ [processing_key] }
              .inr (st2, processing_key, true)
            else .inl (do_send_reply { st with locks := acq2.2 }, .sessionBusy)
          else .inl (do_send_reply { st with locks := acq1.2 }, .sessionBusy)
        | none => .inr ({ st with locks := acq1.2 }, processing_key, true)

/-- Lines 637-817 of handle_callback: the forward attempt inside
try/except/finally. The finally arm releases the lock whenever it was
acquired, on every exit; the no-project ValueError sends the guidance reply;
any other exception escapes to the top-level handler after the release; a
None result sends the failure reply; otherwise the session is recorded (a
record error escapes to the top level) and the reply is sent. -/
def stage_forward (env : Env) (input : CallbackData) (tick : Nat)
    (st : HandlerState) (bot : BotInfo) (effective_user : String)
    (content : Option String) (current_project_id : Option String)
    (processing_key : String) (acquired : Bool) : HandlerState × Outcome :=
  let message := if py_truthy content then content.getD "" else "(image)"
  let st1 := { st with forwards := st.forwards + 1 }
  let release_lock := fun (s : HandlerState) =>
    if acquired then { s with locks := (release s.locks processing_key).2 } else s
  match env.forward with
  | .raisesValueErrorNoProject => (release_lock (do_send_reply st1), .noProjectConfigured)
  | .raisesValueErrorOther => (release_lock st1, .internalError)
  | .raisesOther => (release_lock st1, .internalError)
  | .returns none => (do_send_reply (release_lock st1), .forwardFailed)
  | .returns (some result) =>
    let st2 := release_lock st1
    if py_truthy result.session_id then
      match record_session st2.sessions tick effective_user input.chat_id bot.bot_key
          (result.session_id.getD "") message current_project_id with
      | .error _ => (st2, .internalError)
      | .ok (_, s3) => (do_send_reply { st2 with sessions := s3 }, .ok)
    else (do_send_reply st2, .ok)

/-- The full handle_callback pipeline (routes/callback.py lines 115-817). -/
def handle_callback (env : Env) (input : CallbackData) (now : Int) (tick : Nat)
    (st : HandlerState) : HandlerState × Outcome :=
  match stage_auth_event_bot env input st with
  | .inl term => term
  | .inr (st1, bot1) =>
    match stage_access env input st1 bot1 with
    | .inl term => term
    | .inr (st2, bot) =>
      match stage_content_commands env input st2 bot with
      | .inl term => term
      | .inr st3 =>
        match stage_slash env input tick st3 bot with
        | .inl term => term
        | .inr (st4, effective_user, content) =>
          match stage_session_dedup env input now tick st4 bot effective_user content with
          | .inl term => term
          | .inr (st5, current_session_id, current_project_id) =>
            match stage_target_lock env input now st5 bot content current_session_id with
            | .inl term => term
            | .inr (st6, processing_key, acquired) =>
              stage_forward env input tick st6 bot effective_user content
                current_project_id processing_key acquired

/-- Replies sent per terminal outcome: one for every user-visible terminal,
zero for the silent drops (unauthorized, ignored events, empty content,
duplicates) and for the exceptions reaching the top-level handler. -/
def expected_replies : Outcome → Nat
  | .unauthorized => 0
  | .ignoredEvent => 0
  | .noBotConfig => 1
  | .accessDenied => 1
  | .emptyContent => 0
  | .botCommand => 1
  | .registerHelp => 1
  | .projectCommand => 1
  | .tunnelCommand => 1
  | .slashHandled => 1
  | .permissionDenied => 1
  | .duplicate => 0
  | .noTargetHelp => 1
  | .sessionBusy => 1
  | .lockError => 1
  | .noProjectConfigured => 1
  | .forwardFailed => 1
  | .ok => 1
  | .internalError => 0

/-- Outcomes that are terminal errors in the sense of the error taxonomy of
spec section 7 (DuplicateDelivery included). -/
def is_error_outcome : Outcome → Bool
  | .noBotConfig => true
  | .accessDenied => true
  | .permissionDenied => true
  | .duplicate => true
  | .noTargetHelp => true
  | .sessionBusy => true
  | .lockError => true
  | .noProjectConfigured => true
  | .forwardFailed => true
  | .internalError => true
  | _ => false

/-! Concrete fixtures used to instantiate the theorems: a registered bot
reached over its webhook key, a plain text message, the empty initial state,
and the prod/staging project pair of the resolver scenario. -/

/-- A registered, configured bot with a bot-level target URL. -/
def wBot : BotInfo :=
  { bot_key := "b1"
    name := "Bot One"
    target_url := "http://agent"
    api_key := none
    timeout := 30
    is_registered := true
    is_configured := true }

/-- A collaborating environment in which the forward call succeeds. -/
def wEnv : Env :=
  { auth_ok := true
    resolve_bot_for_key := fun k => if k == "b1" then some wBot else none
    default_bot_key := none
    get_bot := fun _ => none
    check_access := fun _ => true
    is_admin := false
    is_bot_command := fun _ => false
    is_project_command := fun _ => false
    is_tunnel_command := fun _ => false
    parse_slash_command := fun _ => none
    sha256_hex := fun s => s
    lock_raises := false
    forward := .returns (some
      { reply := "done"
        msg_type := "markdown"
        session_id := some "sess-12345678"
        project_id := none
        project_name := none })
    send_ok := true }

/-- The same environment, with the forward call raising an unexpected
exception. -/
def wEnvErr : Env := { wEnv with forward := .raisesOther }

/-- A plain inbound text message carrying a platform message id. -/
def wInput : CallbackData :=
  { chat_id := "c1"
    chat_type := "single"
    msg_type := "text"
    from_user_id := "u1"
    from_user_alias := "alice"
    bot_key := some "b1"
    msg_id := some "m1"
    content := some "hello"
    has_images := false
    quoted_short_id := none }

/-- The empty initial durable state. -/
def wSt0 : HandlerState :=
  { dedup := []
    locks := { rows := [], next_id := 1 }
    sessions := { rows := [], next_id := 1 }
    projects := []
    replies := 0
    forwards := 0
    acquired_keys := [] }

/-- The state right after the lock acquisition of a wEnv/wInput run. -/
def wStLocked : HandlerState :=
  { wSt0 with
    locks :=
      { rows := [
          { id := 1
            session_key := "u1:b1"
            user_id := "u1"
            chat_id := "c1"
            bot_key := "b1"
            message := "hello"
            started_at := 0 }]
        next_id := 2 }
    acquired_keys := ["u1:b1"] }

/-- The empty lock table. -/
def wLock0 : LockDb := { rows := [], next_id := 1 }

/-- The prod/staging project pair of the resolver scenario: one enabled
default project and one enabled non-default project. -/
def wProjects : List UserProjectConfig :=
  [ { id := 1
      bot_key := "b1"
      chat_id := "c1"
      project_id := "prod"
      project_name := some "prod"
      url_template := "http://prod"
      api_key := none
      timeout := 60
      is_default := true
      enabled := true
      created_at := 1 }
  , { id := 2
      bot_key := "b1"
      chat_id := "c1"
      project_id := "staging"
      project_name := some "staging"
      url_template := "http://staging"
      api_key := none
      timeout := 60
      is_default := false
      enabled := true
      created_at := 2 } ]

/-- Two stored sessions sharing the short-id prefix abc1, for the ambiguous
change_session scenario. -/
def wDbC10 : SessionDb :=
  { rows := [
      { id := 1
        user_id := "u"
        chat_id := "c"
        bot_key := "b"
        session_id := "abc12345-0001"
        short_id := "abc12345"
        last_message := ""
        message_count := 1
        current_project_id := none
        is_active := true
        updated_at := 0 },
      { id := 2
        user_id := "u"
        chat_id := "c"
        bot_key := "b"
        session_id := "abc12345-0002"
        short_id := "abc12345"
        last_message := ""
        message_count := 1
        current_project_id := none
        is_active := false
        updated_at := 0 }]
    next_id := 3 }

/-! Splitter support lemmas. -/

example : split_message_content "ab".toList 5 = ["ab".toList] := by decide

example : split_message_content "ab\ncd".toList 2 = ["ab".toList, "cd".toList] := by decide

example :
    (split_message_content "ab\ncd".toList 2).flatten = "abcd".toList := by decide

example : split_long_line "abcde".toList 2 = ["ab".toList, "cd".toList, "e".toList] := by
  decide

example :
    create_message_header "abcd1234".toList (some "demo".toList) 1 3
      = "[#abcd1234 demo] (1/3)".toList := by decide

theorem get_string_bytes_nil : get_string_bytes [] = 0 := rfl

theorem get_string_bytes_append (a b : List Char) :
    get_string_bytes (a ++ b) = get_string_bytes a + get_string_bytes b := by
  simp [get_string_bytes]

theorem get_string_bytes_cons (c : Char) (l : List Char) :
    get_string_bytes (c :: l) = c.utf8Size + get_string_bytes l := by
  simp [get_string_bytes]

theorem char_utf8Size_le_four (c : Char) : c.utf8Size ≤ 4 := by
  show (let v := c.val;
    if v ≤ UInt32.ofNatCore 127 Char.utf8Size.proof_1 then 1
    else
      if v ≤ UInt32.ofNatCore 2047 Char.utf8Size.proof_2 then 2
      else if v ≤ UInt32.ofNatCore 65535 Char.utf8Size.proof_3 then 3 else 4) ≤ 4
  dsimp only
  split
  · decide
  · split
    · decide
    · split <;> decide

theorem py_split_newline_ne_nil (l : List Char) : py_split_newline l ≠ [] := by
  induction l with
  | nil => simp [py_split_newline]
  | cons c rest ih =>
    simp only [py_split_newline]
    split
    · simp
    · cases h : py_split_newline rest <;> simp

theorem py_join_newline_cons (g : List Char) (gs : List (List Char)) (h : gs ≠ []) :
    py_join_newline (g :: gs) = g ++ '\n' :: py_join_newline gs := by
  cases gs with
  | nil => exact absurd rfl h
  | cons a l => rfl

theorem py_join_py_split (l : List Char) : py_join_newline (py_split_newline l) = l := by
  induction l with
  | nil => rfl
  | cons c rest ih =>
    by_cases h : c = '\n'
    · subst h
      have hsplit : py_split_newline ('\n' :: rest) = [] :: py_split_newline rest := by
        simp [py_split_newline]
      rw [hsplit, py_join_newline_cons _ _ (py_split_newline_ne_nil rest), ih]
      rfl
    · cases hg : py_split_newline rest with
      | nil => exact absurd hg (py_split_newline_ne_nil rest)
      | cons g gs =>
        have hsplit : py_split_newline (c :: rest) = (c :: g) :: gs := by
          simp [py_split_newline, h, hg]
        rw [hsplit]
        cases gs with
        | nil =>
          have hgr : g = rest := by rw [hg] at ih; simpa [py_join_newline] using ih
          simp [py_join_newline, hgr]
        | cons g2 gs2 =>
          have step : py_join_newline ((c :: g) :: g2 :: gs2)
              = c :: py_join_newline (g :: g2 :: gs2) := by
            simp [py_join_newline]
          rw [step]
          rw [hg] at ih
          rw [ih]

theorem py_join_snoc (xs : List (List Char)) (y : List Char) (h : xs ≠ []) :
    py_join_newline (xs ++ [y]) = py_join_newline xs ++ '\n' :: y := by
  induction xs with
  | nil => exact absurd rfl h
  | cons a l ih =>
    cases l with
    | nil => simp [py_join_newline]
    | cons b m =>
      have ih' := ih (by simp)
      rw [List.cons_append, py_join_newline_cons a _ (by simp),
        py_join_newline_cons a (b :: m) (by simp), ih']
      simp

theorem flush_current_ne_nil (acc : LineAcc) (h : acc.current_part ≠ []) :
    flush_current acc ≠ [] := by
  simp [flush_current, h]

theorem split_fold_roundtrip (max_bytes : Nat) (L : List (List Char)) :
    ∀ acc : LineAcc, acc.current_part ≠ [] →
    (∀ l ∈ L, get_string_bytes l ≤ max_bytes) →
    py_join_newline (flush_current (L.foldl (split_message_step max_bytes) acc)) =
      L.foldl (fun t l => t ++ '\n' :: l) (py_join_newline (flush_current acc)) := by
  induction L with
  | nil => intro acc _ _; rfl
  | cons l L ih =>
    intro acc hne hb
    have hbl : get_string_bytes l ≤ max_bytes := hb l (by simp)
    have hbL : ∀ x ∈ L, get_string_bytes x ≤ max_bytes := fun x hx => hb x (by simp [hx])
    simp only [List.foldl_cons]
    by_cases hover :
        acc.current_bytes + (get_string_bytes l + (if acc.current_part = [] then 0 else 1))
          > max_bytes
    · have hstep : split_message_step max_bytes acc l =
          ⟨flush_current acc, [l], get_string_bytes l⟩ := by
        simp [split_message_step, Nat.not_lt_of_le hbl, hover]
      rw [hstep]
      rw [ih ⟨flush_current acc, [l], get_string_bytes l⟩ (by simp) hbL]
      have hfl : flush_current ⟨flush_current acc, [l], get_string_bytes l⟩
          = flush_current acc ++ [l] := by
        simp [flush_current]
        rfl
      rw [hfl, py_join_snoc _ _ (flush_current_ne_nil acc hne)]
    · have hstep : split_message_step max_bytes acc l =
          ⟨acc.parts, acc.current_part ++ [l],
            acc.current_bytes + (get_string_bytes l + (if acc.current_part = [] then 0 else 1))⟩ := by
        simp [split_message_step, Nat.not_lt_of_le hbl, hover]
      have hseed : py_join_newline (flush_current
            ⟨acc.parts, acc.current_part ++ [l],
              acc.current_bytes + (get_string_bytes l + if acc.current_part = [] then 0 else 1)⟩)
          = py_join_newline (flush_current acc) ++ '\n' :: l := by
        have hfl : flush_current
              ⟨acc.parts, acc.current_part ++ [l],
                acc.current_bytes + (get_string_bytes l + if acc.current_part = [] then 0 else 1)⟩
            = acc.parts ++ [py_join_newline (acc.current_part ++ [l])] := by
          simp [flush_current]
        have hflush : flush_current acc = acc.parts ++ [py_join_newline acc.current_part] := by
          simp [flush_current, hne]
        rw [hfl, py_join_snoc _ _ hne, hflush]
        by_cases hp : acc.parts = []
        · simp [hp, py_join_newline]
        · rw [py_join_snoc _ _ hp, py_join_snoc _ _ hp]
          simp
      rw [hstep, ih _ (by simp) hbL, hseed]

theorem foldl_extend_join (L : List (List Char)) :
    ∀ g : List Char, L.foldl (fun t l => t ++ '\n' :: l) g = py_join_newline (g :: L) := by
  induction L with
  | nil => intro g; rfl
  | cons r L ih =>
    intro g
    simp only [List.foldl_cons]
    rw [ih (g ++ '\n' :: r)]
    cases L with
    | nil => simp [py_join_newline]
    | cons x xs =>
      rw [py_join_newline_cons _ _ (by simp), py_join_newline_cons g _ (by simp),
        py_join_newline_cons r _ (by simp)]
      simp

theorem split_message_content_roundtrip (message : List Char) (max_bytes : Nat)
    (h : ∀ l ∈ py_split_newline message, get_string_bytes l ≤ max_bytes) :
    py_join_newline (split_message_content message max_bytes) = message := by
  unfold split_message_content
  by_cases hnil : message = []
  · simp [hnil, py_join_newline]
  · simp only [if_neg hnil]
    by_cases hshort : get_string_bytes message ≤ max_bytes
    · simp [hshort, py_join_newline]
    · simp only [if_neg hshort]
      cases hsplit : py_split_newline message with
      | nil => exact absurd hsplit (py_split_newline_ne_nil message)
      | cons l0 rest =>
        have hbl0 : get_string_bytes l0 ≤ max_bytes := h l0 (by rw [hsplit]; simp)
        have hbrest : ∀ x ∈ rest, get_string_bytes x ≤ max_bytes :=
          fun x hx => h x (by rw [hsplit]; simp [hx])
        simp only [List.foldl_cons]
        have hstep1 : split_message_step max_bytes ⟨[], [], 0⟩ l0
            = ⟨[], [l0], get_string_bytes l0⟩ := by
          simp [split_message_step, Nat.not_lt_of_le hbl0]
        rw [hstep1]
        rw [split_fold_roundtrip max_bytes rest ⟨[], [l0], get_string_bytes l0⟩ (by simp) hbrest]
        have hj1 : py_join_newline [l0] = l0 := rfl
        have hfl : flush_current ⟨[], [l0], get_string_bytes l0⟩ = [l0] := by
          simp [flush_current, hj1]
        rw [hfl, hj1, foldl_extend_join rest l0, ← hsplit, py_join_py_split]

theorem get_string_bytes_singleton (c : Char) : get_string_bytes [c] = c.utf8Size := by
  simp [get_string_bytes]

theorem getLastD_mem {α : Type} (l : List α) (d : α) (h : l ≠ []) : l.getLastD d ∈ l := by
  induction l generalizing d with
  | nil => exact absurd rfl h
  | cons a l ih =>
    rw [List.getLastD_cons]
    cases l with
    | nil => simp [List.getLastD]
    | cons b m => simpa using Or.inr (ih a (by simp))

theorem split_long_line_fold_inv (max_bytes : Nat) (hmax : 4 ≤ max_bytes)
    (chars : List Char) :
    ∀ acc : CharAcc,
      (∀ p ∈ acc.parts, get_string_bytes p ≤ max_bytes) →
      acc.current_bytes = get_string_bytes acc.current_chars →
      acc.current_bytes ≤ max_bytes →
      (∀ p ∈ (chars.foldl (split_long_line_step max_bytes) acc).parts,
          get_string_bytes p ≤ max_bytes) ∧
      (chars.foldl (split_long_line_step max_bytes) acc).current_bytes
        = get_string_bytes (chars.foldl (split_long_line_step max_bytes) acc).current_chars ∧
      (chars.foldl (split_long_line_step max_bytes) acc).current_bytes ≤ max_bytes := by
  induction chars with
  | nil => intro acc h1 h2 h3; exact ⟨h1, h2, h3⟩
  | cons c cs ih =>
    intro acc h1 h2 h3
    have hc : c.utf8Size ≤ max_bytes := le_trans (char_utf8Size_le_four c) hmax
    simp only [List.foldl_cons]
    by_cases hover : acc.current_bytes + c.utf8Size > max_bytes
    · have hstep : split_long_line_step max_bytes acc c =
          ⟨if acc.current_chars = [] then acc.parts else acc.parts ++ [acc.current_chars],
            [c], c.utf8Size⟩ := by
        simp [split_long_line_step, hover]
      rw [hstep]
      refine ih _ ?_ ?_ ?_
      · intro p hp
        by_cases hcur : acc.current_chars = []
        · simp [hcur] at hp; exact h1 p hp
        · simp [hcur] at hp
          rcases hp with hp | hp
          · exact h1 p hp
          · subst hp; rw [← h2]; exact h3
      · simp [get_string_bytes_singleton]
      · exact hc
    · have hstep : split_long_line_step max_bytes acc c =
          ⟨acc.parts, acc.current_chars ++ [c], acc.current_bytes + c.utf8Size⟩ := by
        simp [split_long_line_step, hover]
      rw [hstep]
      refine ih _ h1 ?_ ?_
      · simp [get_string_bytes_append, get_string_bytes_singleton, h2]
      · show acc.current_bytes + c.utf8Size ≤ max_bytes
        omega

theorem split_long_line_bound (line : List Char) (max_bytes : Nat) (hmax : 4 ≤ max_bytes) :
    ∀ p ∈ split_long_line line max_bytes, get_string_bytes p ≤ max_bytes := by
  unfold split_long_line
  by_cases hnil : line = []
  · simp [hnil, get_string_bytes_nil]
  · simp only [if_neg hnil]
    obtain ⟨hparts, hcur, hle⟩ :=
      split_long_line_fold_inv max_bytes hmax line ⟨[], [], 0⟩ (by simp) (by simp [get_string_bytes_nil]) (by simp)
    intro p hp
    split at hp
    · exact hparts p hp
    · simp at hp
      rcases hp with hp | hp
      · exact hparts p hp
      · subst hp; rw [← hcur]; exact hle

theorem split_message_fold_inv (max_bytes : Nat) (hmax : 4 ≤ max_bytes)
    (L : List (List Char)) :
    ∀ acc : LineAcc,
      (∀ p ∈ acc.parts, get_string_bytes p ≤ max_bytes) →
      acc.current_bytes = get_string_bytes (py_join_newline acc.current_part) →
      acc.current_bytes ≤ max_bytes →
      (∀ p ∈ (L.foldl (split_message_step max_bytes) acc).parts,
          get_string_bytes p ≤ max_bytes) ∧
      (L.foldl (split_message_step max_bytes) acc).current_bytes
        = get_string_bytes
            (py_join_newline (L.foldl (split_message_step max_bytes) acc).current_part) ∧
      (L.foldl (split_message_step max_bytes) acc).current_bytes ≤ max_bytes := by
  induction L with
  | nil => intro acc h1 h2 h3; exact ⟨h1, h2, h3⟩
  | cons l L ih =>
    intro acc h1 h2 h3
    have hflush : ∀ p ∈ flush_current acc, get_string_bytes p ≤ max_bytes := by
      intro p hp
      unfold flush_current at hp
      split at hp
      · exact h1 p hp
      · simp at hp
        rcases hp with hp | hp
        · exact h1 p hp
        · subst hp; rw [← h2]; exact h3
    simp only [List.foldl_cons]
    by_cases hlong : get_string_bytes l > max_bytes
    · have hstep : split_message_step max_bytes acc l =
          ⟨flush_current acc ++ (split_long_line l max_bytes).dropLast,
            [(split_long_line l max_bytes).getLastD []],
            get_string_bytes ((split_long_line l max_bytes).getLastD [])⟩ := by
        simp [split_message_step, hlong]
      rw [hstep]
      have hlastmem : get_string_bytes ((split_long_line l max_bytes).getLastD []) ≤ max_bytes := by
        by_cases hsl : split_long_line l max_bytes = []
        · simp [hsl, List.getLastD, get_string_bytes_nil]
        · exact split_long_line_bound l max_bytes hmax _ (getLastD_mem _ _ hsl)
      refine ih _ ?_ ?_ hlastmem
      · intro p hp
        simp at hp
        rcases hp with hp | hp
        · exact hflush p hp
        · exact split_long_line_bound l max_bytes hmax p (List.dropLast_subset _ hp)
      · simp [py_join_newline]
    · have hlb : get_string_bytes l ≤ max_bytes := by omega
      by_cases hover :
          acc.current_bytes + (get_string_bytes l + (if acc.current_part = [] then 0 else 1))
            > max_bytes
      · have hstep : split_message_step max_bytes acc l =
            ⟨flush_current acc, [l], get_string_bytes l⟩ := by
          simp [split_message_step, Nat.not_lt_of_le hlb, hover]
        rw [hstep]
        refine ih _ hflush ?_ hlb
        simp [py_join_newline]
      · have hstep : split_message_step max_bytes acc l =
            ⟨acc.parts, acc.current_part ++ [l],
              acc.current_bytes + (get_string_bytes l + if acc.current_part = [] then 0 else 1)⟩ := by
          simp [split_message_step, Nat.not_lt_of_le hlb, hover]
        rw [hstep]
        refine ih _ h1 ?_ ?_
        · by_cases hcur : acc.current_part = []
          · simp [hcur, py_join_newline] at h2 ⊢
            rw [h2]
            simp [get_string_bytes_nil]
          · rw [py_join_snoc _ _ hcur, get_string_bytes_append, get_string_bytes_cons]
            have hnl : '\n'.utf8Size = 1 := rfl
            rw [hnl, ← h2]
            simp [hcur]
            omega
        · show acc.current_bytes + (get_string_bytes l + if acc.current_part = [] then 0 else 1)
              ≤ max_bytes
          omega

theorem split_message_content_bound (message : List Char) (max_bytes : Nat)
    (hmax : 4 ≤ max_bytes) :
    ∀ p ∈ split_message_content message max_bytes, get_string_bytes p ≤ max_bytes := by
  unfold split_message_content
  by_cases hnil : message = []
  · intro p hp
    simp [hnil] at hp
    subst hp
    simp [get_string_bytes_nil]
  · simp only [if_neg hnil]
    by_cases hshort : get_string_bytes message ≤ max_bytes
    · intro p hp
      simp [hshort] at hp
      subst hp
      exact hshort
    · simp only [if_neg hshort]
      obtain ⟨hparts, hcur, hle⟩ :=
        split_message_fold_inv max_bytes hmax (py_split_newline message) ⟨[], [], 0⟩
          (by simp) (by simp [py_join_newline, get_string_bytes_nil]) (by simp)
      intro p hp
      unfold flush_current at hp
      split at hp
      · exact hparts p hp
      · simp at hp
        rcases hp with hp | hp
        · exact hparts p hp
        · subst hp; rw [← hcur]; exact hle

/-! Session store lemmas: the single-active invariant. -/

theorem active_count_eq_countP (db : SessionDb) (u c b : String) :
    active_count db u c b = db.rows.countP (active_for u c b) := by
  rw [List.countP_eq_length_filter]
  rfl

theorem countP_id_le_one (l : List UserSession)
    (h : (l.map (fun r => r.id)).Nodup) (t : Nat) :
    l.countP (fun r => r.id == t) ≤ 1 := by
  induction l with
  | nil => simp
  | cons a l ih =>
    simp only [List.map_cons, List.nodup_cons] at h
    obtain ⟨hna, hnd⟩ := h
    rw [List.countP_cons]
    by_cases hat : a.id = t
    · have hz : l.countP (fun r => r.id == t) = 0 := by
        rw [List.countP_eq_zero]
        intro r hr
        simp only [beq_iff_eq]
        intro hrt
        exact hna (by rw [hat, ← hrt]; exact List.mem_map_of_mem _ hr)
      simp [hat, hz]
    · have : (a.id == t) = false := by simp [hat]
      simp only [this]
      simpa using ih hnd

theorem eq_of_id_eq (l : List UserSession)
    (hnd : (l.map (fun r => r.id)).Nodup) {r s : UserSession}
    (hr : r ∈ l) (hs : s ∈ l) (h : r.id = s.id) : r = s :=
  List.inj_on_of_nodup_map hnd hr hs h

theorem scalar_one_some_eq {α : Type} (l : List α) (x : α)
    (h : scalar_one_or_none l = .ok (some x)) : l = [x] := by
  match l with
  | [] => simp [scalar_one_or_none] at h
  | [y] =>
    simp [scalar_one_or_none] at h
    rw [h]
  | a :: b :: t => simp [scalar_one_or_none] at h

theorem scalar_filter_some {α : Type} (p : α → Bool) (l : List α) (x : α)
    (h : scalar_one_or_none (l.filter p) = .ok (some x)) : x ∈ l ∧ p x = true := by
  have hl := scalar_one_some_eq _ _ h
  have hx : x ∈ l.filter p := by rw [hl]; simp
  exact List.mem_filter.mp hx

theorem wf_map (db : SessionDb) (f : UserSession → UserSession)
    (hf : ∀ r, (f r).id = r.id) (hwf : SessionDbWF db) :
    SessionDbWF ⟨db.rows.map f, db.next_id⟩ := by
  obtain ⟨hnd, hlt⟩ := hwf
  constructor
  · have hmm : (db.rows.map f).map (fun r => r.id) = db.rows.map (fun r => r.id) := by
      rw [List.map_map]
      exact List.map_congr_left (fun r _ => hf r)
    rw [hmm]
    exact hnd
  · intro r hr
    obtain ⟨r0, hr0, rfl⟩ := List.mem_map.mp hr
    rw [hf]
    exact hlt r0 hr0

theorem wf_append (db : SessionDb) (r : UserSession) (hid : r.id = db.next_id)
    (hwf : SessionDbWF db) : SessionDbWF ⟨db.rows ++ [r], db.next_id + 1⟩ := by
  obtain ⟨hnd, hlt⟩ := hwf
  constructor
  · rw [List.map_append]
    refine List.Nodup.append hnd (by simp) ?_
    intro a ha hb
    simp at hb
    subst hb
    obtain ⟨r0, hr0, hr0id⟩ := List.mem_map.mp ha
    have := hlt r0 hr0
    omega
  · intro x hx
    rcases List.mem_append.mp hx with h | h
    · exact Nat.lt_succ_of_lt (hlt x h)
    · simp at h
      subst h
      rw [hid]
      exact Nat.lt_succ_self _

theorem countP_singleton_le_one {α : Type} (p : α → Bool) (x : α) :
    List.countP p [x] ≤ 1 := by
  simp only [List.countP_cons, List.countP_nil]
  split <;> omega

theorem deact_map_countP_le (rows : List UserSession) (u0 c0 b0 u c b : String) :
    (rows.map (fun r =>
      if r.user_id == u0 && r.chat_id == c0 && r.bot_key == b0 && r.is_active then
        { r with is_active := false }
      else r)).countP (active_for u c b) ≤ rows.countP (active_for u c b) := by
  rw [List.countP_map]
  refine List.countP_mono_left ?_
  intro r hr hp
  simp only [Function.comp] at hp
  by_cases hc : (r.user_id == u0 && r.chat_id == c0 && r.bot_key == b0 && r.is_active) = true
  · rw [if_pos hc] at hp
    simp [active_for] at hp
  · rwa [if_neg hc] at hp

theorem deact_map_countP_zero (rows : List UserSession) (u c b : String) :
    (rows.map (fun r =>
      if r.user_id == u && r.chat_id == c && r.bot_key == b && r.is_active then
        { r with is_active := false }
      else r)).countP (active_for u c b) = 0 := by
  rw [List.countP_map, List.countP_eq_zero]
  intro r hr
  simp only [Function.comp]
  by_cases hc : (r.user_id == u && r.chat_id == c && r.bot_key == b && r.is_active) = true
  · rw [if_pos hc]
    simp [active_for]
  · rw [if_neg hc]
    simp only [active_for]
    exact fun hcc => hc hcc

theorem record_session_preserves (db : SessionDb) (now : Nat)
    (u0 c0 b0 sid msg : String) (proj : Option String) (u c b : String)
    (hwf : SessionDbWF db)
    (hok : ∀ r ∈ db.rows, r.user_id = u0 → r.chat_id = c0 → r.bot_key = b0 →
      r.session_id = sid → r.is_active = true)
    (hinv : active_count db u c b ≤ 1) (res : UserSession) (db2 : SessionDb)
    (h : record_session db now u0 c0 b0 sid msg proj = .ok (res, db2)) :
    active_count db2 u c b ≤ 1 := by
  obtain ⟨hnd, hlt⟩ := hwf
  unfold record_session at h
  cases hsc : scalar_one_or_none (db.rows.filter (fun r =>
      r.user_id == u0 && r.chat_id == c0 && r.bot_key == b0 && r.session_id == sid)) with
  | error e =>
    rw [hsc] at h
    exact absurd h (by simp)
  | ok oex =>
    rw [hsc] at h
    cases oex with
    | some ex =>
      simp only [Except.ok.injEq, Prod.mk.injEq] at h
      obtain ⟨hres, hdb2⟩ := h
      subst hdb2
      obtain ⟨hexmem, hexq⟩ := scalar_filter_some _ _ _ hsc
      simp only [Bool.and_eq_true, beq_iff_eq] at hexq
      obtain ⟨⟨⟨hexu, hexc⟩, hexb⟩, hexs⟩ := hexq
      have hexact : ex.is_active = true := hok ex hexmem hexu hexc hexb hexs
      rw [active_count_eq_countP] at hinv
      rw [active_count_eq_countP]
      dsimp only
      rw [List.countP_map]
      refine le_trans (List.countP_mono_left ?_) hinv
      intro r hr hp
      simp only [Function.comp] at hp
      by_cases hid : (r.id == ex.id) = true
      · rw [if_pos hid] at hp
        have hrex : r = ex := eq_of_id_eq db.rows hnd hr hexmem (by simpa using hid)
        subst hrex
        simp only [active_for, Bool.and_eq_true, beq_iff_eq] at hp ⊢
        exact ⟨⟨⟨hp.1.1.1, hp.1.1.2⟩, hp.1.2⟩, hexact⟩
      · rw [if_neg hid] at hp
        exact hp
    | none =>
      simp only [Except.ok.injEq, Prod.mk.injEq] at h
      obtain ⟨hres, hdb2⟩ := h
      subst hdb2
      rw [active_count_eq_countP] at hinv
      rw [active_count_eq_countP]
      dsimp only
      rw [List.countP_append]
      by_cases htr : u0 = u ∧ c0 = c ∧ b0 = b
      · obtain ⟨rfl, rfl, rfl⟩ := htr
        rw [deact_map_countP_zero, Nat.zero_add]
        exact countP_singleton_le_one _ _
      · have hle := deact_map_countP_le db.rows u0 c0 b0 u c b
        simp only [List.countP_cons, List.countP_nil, active_for]
        simp only [Bool.and_true]
        have hcond : ¬ ((u0 == u && c0 == c && b0 == b) = true) := by
          simp only [Bool.and_eq_true, beq_iff_eq]
          intro hcc
          exact htr ⟨hcc.1.1, hcc.1.2, hcc.2⟩
        rw [if_neg hcond]
        omega

theorem reset_session_preserves (db : SessionDb) (u0 c0 b0 u c b : String)
    (hinv : active_count db u c b ≤ 1) :
    active_count (reset_session db u0 c0 b0).2 u c b ≤ 1 := by
  rw [active_count_eq_countP] at hinv
  rw [active_count_eq_countP]
  unfold reset_session
  dsimp only
  exact le_trans (deact_map_countP_le db.rows u0 c0 b0 u c b) hinv

theorem project_map_countP_eq (rows : List UserSession) (now : Nat)
    (u0 c0 b0 p0 u c b : String) :
    (rows.map (fun r =>
      if r.user_id == u0 && r.chat_id == c0 && r.bot_key == b0 && r.is_active then
        { r with current_project_id := some p0, updated_at := now }
      else r)).countP (active_for u c b) = rows.countP (active_for u c b) := by
  rw [List.countP_map]
  have hpt : ∀ r : UserSession, active_for u c b
      (if r.user_id == u0 && r.chat_id == c0 && r.bot_key == b0 && r.is_active then
        { r with current_project_id := some p0, updated_at := now }
      else r) = active_for u c b r := by
    intro r
    by_cases hc : (r.user_id == u0 && r.chat_id == c0 && r.bot_key == b0 && r.is_active) = true
    · rw [if_pos hc]
      simp [active_for]
    · rw [if_neg hc]
  have hfun : (active_for u c b ∘ fun r =>
      if r.user_id == u0 && r.chat_id == c0 && r.bot_key == b0 && r.is_active then
        { r with current_project_id := some p0, updated_at := now }
      else r) = active_for u c b := funext (fun r => hpt r)
  rw [hfun]

theorem set_session_project_preserves (db : SessionDb) (now : Nat)
    (u0 c0 b0 p0 fresh u c b : String)
    (hinv : active_count db u c b ≤ 1) :
    active_count (set_session_project db now u0 c0 b0 p0 fresh).2 u c b ≤ 1 := by
  rw [active_count_eq_countP] at hinv
  rw [active_count_eq_countP]
  unfold set_session_project
  by_cases hcnt : (db.rows.filter (fun r =>
      r.user_id == u0 && r.chat_id == c0 && r.bot_key == b0 && r.is_active)).length > 0
  · rw [if_pos hcnt]
    dsimp only
    rw [project_map_countP_eq]
    exact hinv
  · rw [if_neg hcnt]
    dsimp only
    rw [List.countP_append]
    by_cases htr : u0 = u ∧ c0 = c ∧ b0 = b
    · obtain ⟨rfl, rfl, rfl⟩ := htr
      have hz : db.rows.countP (active_for u0 c0 b0) = 0 := by
        rw [List.countP_eq_length_filter]
        exact Nat.eq_zero_of_not_pos hcnt
      rw [hz, Nat.zero_add]
      exact countP_singleton_le_one _ _
    · simp only [List.countP_cons, List.countP_nil, active_for]
      simp only [Bool.and_true]
      have hcond : ¬ ((u0 == u && c0 == c && b0 == b) = true) := by
        simp only [Bool.and_eq_true, beq_iff_eq]
        intro hcc
        exact htr ⟨hcc.1.1, hcc.1.2, hcc.2⟩
      rw [if_neg hcond]
      omega

theorem change_map_countP_le_one (db : SessionDb) (now : Nat) (u0 c0 : String)
    (bk : Option String) (target : UserSession) (u c b : String)
    (hnd : (db.rows.map (fun r => r.id)).Nodup)
    (hbase : (target.user_id == u0 && target.chat_id == c0
      && (if py_truthy bk then target.bot_key == bk.getD "" else true)) = true)
    (hinv : db.rows.countP (active_for u c b) ≤ 1) :
    (db.rows.map (fun r =>
      if r.id == target.id then { target with is_active := true, updated_at := now }
      else if r.user_id == u0 && r.chat_id == c0 && r.is_active && r.id != target.id
          && (if py_truthy bk then r.bot_key == bk.getD "" else true) then
        { r with is_active := false }
      else r)).countP (active_for u c b) ≤ 1 := by
  rw [List.countP_map]
  simp only [Bool.and_eq_true, beq_iff_eq] at hbase
  obtain ⟨⟨htu, htc⟩, htb⟩ := hbase
  by_cases hA : target.user_id = u ∧ target.chat_id = c ∧ target.bot_key = b
  · refine le_trans (List.countP_mono_left ?_) (countP_id_le_one db.rows hnd target.id)
    intro r hr hp
    simp only [Function.comp] at hp
    by_cases hid : (r.id == target.id) = true
    · exact hid
    · rw [if_neg hid] at hp
      by_cases hdc : (r.user_id == u0 && r.chat_id == c0 && r.is_active
          && r.id != target.id
          && (if py_truthy bk then r.bot_key == bk.getD "" else true)) = true
      · rw [if_pos hdc] at hp
        simp [active_for] at hp
      · rw [if_neg hdc] at hp
        exfalso
        apply hdc
        simp only [active_for, Bool.and_eq_true, beq_iff_eq] at hp
        obtain ⟨⟨⟨hpu, hpc⟩, hpb⟩, hpa⟩ := hp
        simp only [Bool.and_eq_true, beq_iff_eq, bne_iff_ne, ne_eq]
        refine ⟨⟨⟨⟨?_, ?_⟩, hpa⟩, ?_⟩, ?_⟩
        · rw [hpu, ← hA.1, htu]
        · rw [hpc, ← hA.2.1, htc]
        · intro hcc
          exact hid (by simp [hcc])
        · by_cases hbk : py_truthy bk = true
          · rw [if_pos hbk]
            rw [if_pos hbk] at htb
            simp only [beq_iff_eq] at htb ⊢
            rw [hpb, ← hA.2.2, htb]
          · rw [if_neg hbk]
  · refine le_trans (List.countP_mono_left ?_) hinv
    intro r hr hp
    simp only [Function.comp] at hp
    by_cases hid : (r.id == target.id) = true
    · rw [if_pos hid] at hp
      exfalso
      simp only [active_for, Bool.and_eq_true, beq_iff_eq] at hp
      exact hA ⟨hp.1.1.1, hp.1.1.2, hp.1.2⟩
    · rw [if_neg hid] at hp
      by_cases hdc : (r.user_id == u0 && r.chat_id == c0 && r.is_active
          && r.id != target.id
          && (if py_truthy bk then r.bot_key == bk.getD "" else true)) = true
      · rw [if_pos hdc] at hp
        simp [active_for] at hp
      · rwa [if_neg hdc] at hp

theorem change_session_preserves (db : SessionDb) (now : Nat) (u0 c0 sid0 : String)
    (bk : Option String) (u c b : String)
    (hwf : SessionDbWF db) (hinv : active_count db u c b ≤ 1)
    (res : Option UserSession) (db2 : SessionDb)
    (h : change_session db now u0 c0 sid0 bk = .ok (res, db2)) :
    active_count db2 u c b ≤ 1 := by
  obtain ⟨hnd, hlt⟩ := hwf
  rw [active_count_eq_countP] at hinv
  simp only [change_session] at h
  cases hsc1 : scalar_one_or_none (db.rows.filter (fun r =>
      (r.user_id == u0 && r.chat_id == c0
        && (if py_truthy bk then r.bot_key == bk.getD "" else true))
        && r.short_id == sid0)) with
  | error e =>
    rw [hsc1] at h
    exact absurd h (by simp)
  | ok oex =>
    rw [hsc1] at h
    cases oex with
    | some t =>
      simp only [Except.ok.injEq, Prod.mk.injEq] at h
      obtain ⟨hres, hdb2⟩ := h
      subst hdb2
      rw [active_count_eq_countP]
      dsimp only
      have hbase : (t.user_id == u0 && t.chat_id == c0
          && (if py_truthy bk then t.bot_key == bk.getD "" else true)) = true := by
        obtain ⟨hmem, hq⟩ := scalar_filter_some _ _ _ hsc1
        rw [Bool.and_eq_true] at hq
        exact hq.1
      exact change_map_countP_le_one db now u0 c0 bk t u c b hnd hbase hinv
    | none =>
      cases hsc2 : scalar_one_or_none (db.rows.filter (fun r =>
          (r.user_id == u0 && r.chat_id == c0
            && (if py_truthy bk then r.bot_key == bk.getD "" else true))
            && sid0.data.isPrefixOf r.session_id.data)) with
      | error e =>
        rw [hsc2] at h
        exact absurd h (by simp)
      | ok otgt =>
        rw [hsc2] at h
        cases otgt with
        | none =>
          simp only [Except.ok.injEq, Prod.mk.injEq] at h
          obtain ⟨hres, hdb2⟩ := h
          subst hdb2
          rwa [active_count_eq_countP]
        | some t =>
          simp only [Except.ok.injEq, Prod.mk.injEq] at h
          obtain ⟨hres, hdb2⟩ := h
          subst hdb2
          rw [active_count_eq_countP]
          dsimp only
          have hbase : (t.user_id == u0 && t.chat_id == c0
              && (if py_truthy bk then t.bot_key == bk.getD "" else true)) = true := by
            obtain ⟨hmem, hq⟩ := scalar_filter_some _ _ _ hsc2
            rw [Bool.and_eq_true] at hq
            exact hq.1
          exact change_map_countP_le_one db now u0 c0 bk t u c b hnd hbase hinv

theorem record_session_wf (db : SessionDb) (now : Nat)
    (u0 c0 b0 sid msg : String) (proj : Option String)
    (hwf : SessionDbWF db) (res : UserSession) (db2 : SessionDb)
    (h : record_session db now u0 c0 b0 sid msg proj = .ok (res, db2)) :
    SessionDbWF db2 := by
  unfold record_session at h
  cases hsc : scalar_one_or_none (db.rows.filter (fun r =>
      r.user_id == u0 && r.chat_id == c0 && r.bot_key == b0 && r.session_id == sid)) with
  | error e =>
    rw [hsc] at h
    exact absurd h (by simp)
  | ok oex =>
    rw [hsc] at h
    cases oex with
    | some ex =>
      simp only [Except.ok.injEq, Prod.mk.injEq] at h
      obtain ⟨hres, hdb2⟩ := h
      subst hdb2
      refine wf_map db _ ?_ hwf
      intro r
      by_cases hid : (r.id == ex.id) = true
      · rw [if_pos hid]
        simp only [beq_iff_eq] at hid
        exact hid.symm
      · rw [if_neg hid]
    | none =>
      simp only [Except.ok.injEq, Prod.mk.injEq] at h
      obtain ⟨hres, hdb2⟩ := h
      subst hdb2
      exact wf_append ⟨db.rows.map _, db.next_id⟩ _ rfl (wf_map db _ (fun r => by
        by_cases hc : (r.user_id == u0 && r.chat_id == c0 && r.bot_key == b0
            && r.is_active) = true
        · rw [if_pos hc]
        · rw [if_neg hc]) hwf)

theorem reset_session_wf (db : SessionDb) (u0 c0 b0 : String) (hwf : SessionDbWF db) :
    SessionDbWF (reset_session db u0 c0 b0).2 := by
  unfold reset_session
  dsimp only
  refine wf_map db _ ?_ hwf
  intro r
  by_cases hc : (r.user_id == u0 && r.chat_id == c0 && r.bot_key == b0 && r.is_active) = true
  · rw [if_pos hc]
  · rw [if_neg hc]

theorem set_session_project_wf (db : SessionDb) (now : Nat)
    (u0 c0 b0 p0 fresh : String) (hwf : SessionDbWF db) :
    SessionDbWF (set_session_project db now u0 c0 b0 p0 fresh).2 := by
  unfold set_session_project
  by_cases hcnt : (db.rows.filter (fun r =>
      r.user_id == u0 && r.chat_id == c0 && r.bot_key == b0 && r.is_active)).length > 0
  · rw [if_pos hcnt]
    dsimp only
    refine wf_map db _ ?_ hwf
    intro r
    by_cases hc : (r.user_id == u0 && r.chat_id == c0 && r.bot_key == b0
        && r.is_active) = true
    · rw [if_pos hc]
    · rw [if_neg hc]
  · rw [if_neg hcnt]
    dsimp only
    exact wf_append db _ rfl hwf

theorem change_session_wf (db : SessionDb) (now : Nat) (u0 c0 sid0 : String)
    (bk : Option String) (hwf : SessionDbWF db)
    (res : Option UserSession) (db2 : SessionDb)
    (h : change_session db now u0 c0 sid0 bk = .ok (res, db2)) :
    SessionDbWF db2 := by
  simp only [change_session] at h
  have hid_preserve : ∀ (t : UserSession) (r : UserSession),
      ((if r.id == t.id then { t with is_active := true, updated_at := now }
        else if r.user_id == u0 && r.chat_id == c0 && r.is_active && r.id != t.id
            && (if py_truthy bk then r.bot_key == bk.getD "" else true) then
          { r with is_active := false }
        else r) : UserSession).id = r.id := by
    intro t r
    by_cases hid : (r.id == t.id) = true
    · rw [if_pos hid]
      simp only [beq_iff_eq] at hid
      exact hid.symm
    · rw [if_neg hid]
      by_cases hdc : (r.user_id == u0 && r.chat_id == c0 && r.is_active && r.id != t.id
          && (if py_truthy bk then r.bot_key == bk.getD "" else true)) = true
      · rw [if_pos hdc]
      · rw [if_neg hdc]
  cases hsc1 : scalar_one_or_none (db.rows.filter (fun r =>
      (r.user_id == u0 && r.chat_id == c0
        && (if py_truthy bk then r.bot_key == bk.getD "" else true))
        && r.short_id == sid0)) with
  | error e =>
    rw [hsc1] at h
    exact absurd h (by simp)
  | ok oex =>
    rw [hsc1] at h
    cases oex with
    | some t =>
      simp only [Except.ok.injEq, Prod.mk.injEq] at h
      obtain ⟨hres, hdb2⟩ := h
      subst hdb2
      exact wf_map db _ (hid_preserve t) hwf
    | none =>
      cases hsc2 : scalar_one_or_none (db.rows.filter (fun r =>
          (r.user_id == u0 && r.chat_id == c0
            && (if py_truthy bk then r.bot_key == bk.getD "" else true))
            && sid0.data.isPrefixOf r.session_id.data)) with
      | error e =>
        rw [hsc2] at h
        exact absurd h (by simp)
      | ok otgt =>
        rw [hsc2] at h
        cases otgt with
        | none =>
          simp only [Except.ok.injEq, Prod.mk.injEq] at h
          obtain ⟨hres, hdb2⟩ := h
          subst hdb2
          exact hwf
        | some t =>
          simp only [Except.ok.injEq, Prod.mk.injEq] at h
          obtain ⟨hres, hdb2⟩ := h
          subst hdb2
          exact wf_map db _ (hid_preserve t) hwf

theorem applySessionOp_preserves (db : SessionDb) (now : Nat) (op : SessionOp)
    (u c b : String) (hwf : SessionDbWF db) (hok : RecordFreshOrActive db op)
    (hinv : active_count db u c b ≤ 1) :
    active_count (applySessionOp db now op) u c b ≤ 1 ∧
      SessionDbWF (applySessionOp db now op) := by
  cases op with
  | record u0 c0 b0 sid msg proj =>
    simp only [applySessionOp]
    cases hrec : record_session db now u0 c0 b0 sid msg proj with
    | error e => exact ⟨hinv, hwf⟩
    | ok p =>
      obtain ⟨res, db2⟩ := p
      exact ⟨record_session_preserves db now u0 c0 b0 sid msg proj u c b hwf hok hinv
          res db2 hrec,
        record_session_wf db now u0 c0 b0 sid msg proj hwf res db2 hrec⟩
  | reset u0 c0 b0 =>
    exact ⟨reset_session_preserves db u0 c0 b0 u c b hinv, reset_session_wf db u0 c0 b0 hwf⟩
  | change u0 c0 sid0 bk =>
    simp only [applySessionOp]
    cases hch : change_session db now u0 c0 sid0 bk with
    | error e => exact ⟨hinv, hwf⟩
    | ok p =>
      obtain ⟨res, db2⟩ := p
      exact ⟨change_session_preserves db now u0 c0 sid0 bk u c b hwf hinv res db2 hch,
        change_session_wf db now u0 c0 sid0 bk hwf res db2 hch⟩
  | set_project u0 c0 b0 p0 fresh =>
    exact ⟨set_session_project_preserves db now u0 c0 b0 p0 fresh u c b hinv,
      set_session_project_wf db now u0 c0 b0 p0 fresh hwf⟩

theorem runSessionOps_preserves (ops : List SessionOp) :
    ∀ (db : SessionDb) (now : Nat) (u c b : String), SessionDbWF db → OpsOK db now ops →
      active_count db u c b ≤ 1 →
      active_count (runSessionOps db now ops) u c b ≤ 1 := by
  induction ops with
  | nil =>
    intro db now u c b _ _ hinv
    exact hinv
  | cons op ops ih =>
    intro db now u c b hwf hok hinv
    obtain ⟨hok1, hokrest⟩ := hok
    obtain ⟨hinv2, hwf2⟩ := applySessionOp_preserves db now op u c b hwf hok1 hinv
    exact ih (applySessionOp db now op) (now + 1) u c b hwf2 hokrest hinv2

/-! Processing lock lemmas. -/

theorem try_acquire_of_held (db : LockDb) (now : Int)
    (k u c b m : String) (h : lock_held db k = true) :
    try_acquire db now k u c b m = (false, db) := by
  unfold try_acquire
  rw [if_pos]
  exact h

theorem try_acquire_success_held (db : LockDb) (now : Int) (k u c b m : String)
    (h : (try_acquire db now k u c b m).1 = true) :
    lock_held (try_acquire db now k u c b m).2 k = true := by
  unfold try_acquire at h ⊢
  by_cases hheld : (db.rows.any (fun r => r.session_key == k)) = true
  · rw [if_pos hheld] at h
    exact absurd h (by simp)
  · rw [if_neg hheld] at h ⊢
    simp [lock_held]

theorem try_acquire_not_held_succeeds (db : LockDb) (now : Int) (k u c b m : String)
    (h : lock_held db k = false) :
    (try_acquire db now k u c b m).1 = true := by
  unfold try_acquire
  rw [if_neg]
  intro hc
  rw [lock_held] at h
  rw [hc] at h
  exact absurd h (by simp)

theorem release_not_held (db : LockDb) (k : String) :
    lock_held (release db k).2 k = false := by
  unfold release lock_held
  dsimp only
  rw [List.any_eq_false]
  intro r hr
  rw [List.mem_filter] at hr
  obtain ⟨hmem, hneq⟩ := hr
  intro hk
  simp [hk] at hneq

theorem try_acquire_other_preserves (db : LockDb) (now : Int)
    (k2 u c b m k : String) (hne : k2 ≠ k) :
    lock_held (try_acquire db now k2 u c b m).2 k = lock_held db k := by
  unfold try_acquire
  by_cases hheld : (db.rows.any (fun r => r.session_key == k2)) = true
  · rw [if_pos hheld]
  · rw [if_neg hheld]
    simp only [lock_held, List.any_append, List.any_cons, List.any_nil, Bool.or_false]
    simp [hne]

theorem release_other_preserves (db : LockDb) (k2 k : String) (hne : k2 ≠ k) :
    lock_held (release db k2).2 k = lock_held db k := by
  unfold release lock_held
  dsimp only
  by_cases hh : (db.rows.any fun r => r.session_key == k) = true
  · rw [hh]
    simp only [List.any_eq_true] at hh ⊢
    obtain ⟨r, hr, hk⟩ := hh
    refine ⟨r, List.mem_filter.mpr ⟨hr, ?_⟩, hk⟩
    simp only [beq_iff_eq] at hk
    simp [hk, hne.symm]
  · have hf : ((List.filter (fun r => !(r.session_key == k2)) db.rows).any
        fun r => r.session_key == k) = false := by
      rw [List.any_eq_false]
      intro r hr hk
      rw [List.mem_filter] at hr
      exact hh (List.any_eq_true.mpr ⟨r, hr.1, hk⟩)
    rw [hf]
    cases hcur : db.rows.any fun r => r.session_key == k
    · rfl
    · exact absurd hcur hh

example :
    get_forward_config_for_user
      [ { id := 1, bot_key := "b1", chat_id := "c1", project_id := "prod",
          project_name := some "prod", url_template := "http://prod", api_key := none,
          timeout := 60, is_default := true, enabled := true, created_at := 1 }
      , { id := 2, bot_key := "b1", chat_id := "c1", project_id := "staging",
          project_name := some "staging", url_template := "http://staging", api_key := none,
          timeout := 60, is_default := false, enabled := true, created_at := 2 } ]
      none "b1" "c1" none
    = .ok { target_url := "http://prod", api_key := none, timeout := 60,
            project_id := some "prod", project_name := some "prod" } := by
  rfl

example :
    resolve_spec
      [ { id := 1, bot_key := "b1", chat_id := "c1", project_id := "prod",
          project_name := some "prod", url_template := "http://prod", api_key := none,
          timeout := 60, is_default := true, enabled := true, created_at := 1 }
      , { id := 2, bot_key := "b1", chat_id := "c1", project_id := "staging",
          project_name := some "staging", url_template := "http://staging", api_key := none,
          timeout := 60, is_default := false, enabled := true, created_at := 2 } ]
      none "b1" "c1" none
    = .ok { target_url := "http://prod", api_key := none, timeout := 60,
            project_id := some "prod", project_name := some "prod" } := by
  rfl

/-! Config resolver lemmas. -/

theorem scalar_filter_eq_find {α : Type} (l : List α) (p : α → Bool)
    (hnd : l.Nodup)
    (huniq : ∀ a ∈ l, ∀ b ∈ l, p a = true → p b = true → a = b) :
    scalar_one_or_none (l.filter p) = .ok (l.find? p) := by
  induction l with
  | nil => rfl
  | cons a t ih =>
    rw [List.nodup_cons] at hnd
    obtain ⟨hna, hndt⟩ := hnd
    by_cases hpa : p a = true
    · rw [List.filter_cons_of_pos hpa, List.find?_cons_of_pos _ hpa]
      have hft : t.filter p = [] := by
        rw [List.filter_eq_nil_iff]
        intro b hb hpb
        have hba : a = b := huniq a (by simp) b (by simp [hb]) hpa hpb
        exact hna (hba ▸ hb)
      rw [hft]
      rfl
    · rw [List.filter_cons_of_neg hpa, List.find?_cons_of_neg _ hpa]
      exact ih hndt (fun x hx y hy hpx hpy =>
        huniq x (by simp [hx]) y (by simp [hy]) hpx hpy)

theorem find?_and_of_unique {α : Type} (l : List α) (t e : α → Bool)
    (hnd : l.Nodup)
    (huniq : ∀ a ∈ l, ∀ b ∈ l, t a = true → t b = true → a = b) :
    l.find? (fun x => t x && e x) =
      (match l.find? t with
        | some p => if e p then some p else none
        | none => none) := by
  induction l with
  | nil => rfl
  | cons a l ih =>
    rw [List.nodup_cons] at hnd
    obtain ⟨hna, hndl⟩ := hnd
    by_cases hta : t a = true
    · rw [List.find?_cons_of_pos _ hta]
      by_cases hea : e a = true
    
      · rw [List.find?_cons_of_pos]
        · simp [hea]
        · simp [hta, hea]
      · rw [List.find?_cons_of_neg]
        · have hnone : l.find? (fun x => t x && e x) = none := by
            rw [List.find?_eq_none]
            intro x hx hpx
            rw [Bool.and_eq_true] at hpx
            have hxa : a = x := huniq a (by simp) x (by simp [hx]) hta hpx.1
            exact hna (hxa ▸ hx)
          rw [hnone]
          simp [hea]
        · simp [hta, hea]
    · rw [List.find?_cons_of_neg _ hta, List.find?_cons_of_neg]
      · exact ih hndl (fun x hx y hy hpx hpy =>
          huniq x (by simp [hx]) y (by simp [hy]) hpx hpy)
      · simp [hta]

theorem earliest_created_mem (l : List UserProjectConfig) (m : UserProjectConfig)
    (h : earliest_created l = some m) : m ∈ l := by
  induction l generalizing m with
  | nil => simp [earliest_created] at h
  | cons p ps ih =>
    rw [earliest_created] at h
    cases hrec : earliest_created ps with
    | none =>
      rw [hrec] at h
      dsimp only at h
      simp at h
      simp [h]
    | some q =>
      rw [hrec] at h
      dsimp only at h
      by_cases hlt : p.created_at < q.created_at
      · rw [if_pos hlt] at h
        simp at h
        simp [h]
      · rw [if_neg hlt] at h
        simp at h
        subst h
        simp [ih q hrec]

theorem earliest_created_isSome (l : List UserProjectConfig) (h : l ≠ []) :
    ∃ m, earliest_created l = some m := by
  cases l with
  | nil => exact absurd rfl h
  | cons p ps =>
    rw [earliest_created]
    cases earliest_created ps with
    | none => exact ⟨p, rfl⟩
    | some q =>
      dsimp only
      by_cases hlt : p.created_at < q.created_at
      · rw [if_pos hlt]
        exact ⟨p, rfl⟩
      · rw [if_neg hlt]
        exact ⟨q, rfl⟩

theorem earliest_created_min (l : List UserProjectConfig) (m : UserProjectConfig)
    (h : earliest_created l = some m) :
    ∀ x ∈ l, m.created_at ≤ x.created_at := by
  induction l generalizing m with
  | nil => simp [earliest_created] at h
  | cons p ps ih =>
    rw [earliest_created] at h
    cases hrec : earliest_created ps with
    | none =>
      rw [hrec] at h
      dsimp only at h
      simp at h
      subst h
      intro x hx
      rcases List.mem_cons.mp hx with hx | hx
      · subst hx
        exact le_refl _
      · exfalso
        obtain ⟨m2, hm2⟩ := earliest_created_isSome ps (by intro hn; rw [hn] at hx; simp at hx)
        rw [hm2] at hrec
        exact Option.noConfusion hrec
    | some q =>
      rw [hrec] at h
      dsimp only at h
      intro x hx
      rcases List.mem_cons.mp hx with hx | hx
      · rw [hx]
        by_cases hlt : p.created_at < q.created_at
        · rw [if_pos hlt] at h
          simp at h
          subst h
          exact le_refl _
        · rw [if_neg hlt] at h
          simp at h
          subst h
          omega
      · have hq := ih q hrec x hx
        by_cases hlt : p.created_at < q.created_at
        · rw [if_pos hlt] at h
          simp at h
          subst h
          omega
        · rw [if_neg hlt] at h
          simp at h
          subst h
          exact hq

theorem selection_rest_eq_spec (projects : List UserProjectConfig)
    (bot_key chat_id : String) (hinv : ProjectInvariants projects) :
    project_selection_rest projects bot_key chat_id
      = .ok ((spec_choice_rest projects bot_key chat_id).map mk_config_from_project) := by
  obtain ⟨hnd, huniq3, huniqd, huniqc⟩ := hinv
  unfold project_selection_rest spec_choice_rest
  rw [get_default_project, scalar_filter_eq_find _ _ hnd ?hdefu]
  case hdefu =>
    intro a ha b hb hpa hpb
    simp only [Bool.and_eq_true, beq_iff_eq] at hpa hpb
    exact huniqd a ha b hb (by rw [hpa.1.1.1, hpb.1.1.1]) (by rw [hpa.1.1.2, hpb.1.1.2])
      hpa.1.2 hpb.1.2 hpa.2 hpb.2
  cases hdef : projects.find? (fun p => p.bot_key == bot_key && p.chat_id == chat_id
      && p.is_default && p.enabled) with
  | some d => rfl
  | none =>
    unfold get_user_projects
    have hfe : (fun p : UserProjectConfig => p.bot_key == bot_key && p.chat_id == chat_id
        && (if (true : Bool) then p.enabled else true))
        = (fun p : UserProjectConfig => p.bot_key == bot_key && p.chat_id == chat_id
            && p.enabled) := by
      funext p
      simp
    rw [hfe]
    cases hL : projects.filter (fun p => p.bot_key == bot_key && p.chat_id == chat_id
        && p.enabled) with
    | nil => rfl
    | cons p rest1 =>
      cases rest1 with
      | nil => rfl
      | cons q rest =>
        have hperm := List.perm_insertionSort project_order (p :: q :: rest)
        have hlen := hperm.length_eq
        have hsorted := List.sorted_insertionSort project_order (p :: q :: rest)
        obtain ⟨m, hm⟩ := earliest_created_isSome (p :: q :: rest) (by simp)
        dsimp only
        rw [hm]
        cases hS : List.insertionSort project_order (p :: q :: rest) with
        | nil => rw [hS] at hlen; simp at hlen
        | cons s1 stail =>
          rw [hS] at hperm hlen hsorted
          have hs1L : s1 ∈ p :: q :: rest := hperm.mem_iff.mp (by simp)
          have hmL : m ∈ p :: q :: rest := earliest_created_mem _ _ hm
          have hmS : m ∈ s1 :: stail := hperm.mem_iff.mpr hmL
          have hnodef : ∀ x ∈ p :: q :: rest, x.is_default = false := by
            intro x hx
            have hxproj : x ∈ projects := List.mem_of_mem_filter (hL ▸ hx)
            have hxpred := List.of_mem_filter (hL ▸ hx)
            rw [List.find?_eq_none] at hdef
            have hnd2 := hdef x hxproj
            simp only [Bool.and_eq_true, beq_iff_eq] at hxpred hnd2
            by_cases hd : x.is_default = true
            · exact absurd ⟨⟨⟨hxpred.1.1, hxpred.1.2⟩, hd⟩, hxpred.2⟩ hnd2
            · exact Bool.not_eq_true _ ▸ hd
          have hordered : project_order s1 m := by
            rcases List.mem_cons.mp hmS with hms | hms
            · rw [hms]
              right
              exact ⟨rfl, le_refl _⟩
            · exact (List.sorted_cons.mp hsorted).1 m hms
          have hcreated_le : s1.created_at ≤ m.created_at := by
            rcases hordered with hlt | heq
            · rw [hnodef s1 hs1L, hnodef m hmL] at hlt
              simp at hlt
            · exact heq.2
          have hcreated_ge : m.created_at ≤ s1.created_at :=
            earliest_created_min _ _ hm s1 hs1L
          have hs1m : s1 = m := by
            have hs1proj : s1 ∈ projects := List.mem_of_mem_filter (hL ▸ hs1L)
            have hmproj : m ∈ projects := List.mem_of_mem_filter (hL ▸ hmL)
            have hs1pred := List.of_mem_filter (hL ▸ hs1L)
            have hmpred := List.of_mem_filter (hL ▸ hmL)
            simp only [Bool.and_eq_true, beq_iff_eq] at hs1pred hmpred
            exact huniqc s1 hs1proj m hmproj (by rw [hs1pred.1.1, hmpred.1.1])
              (by rw [hs1pred.1.2, hmpred.1.2]) hs1pred.2 hmpred.2 (by omega)
          rw [hs1m]
          cases stail with
          | nil => simp at hlen
          | cons s2 srest => rfl

theorem selection_rest_full_eq (projects : List UserProjectConfig)
    (bot : Option BotInfo) (bot_key chat_id : String)
    (hinv : ProjectInvariants projects) :
    (match project_selection_rest projects bot_key chat_id with
      | .ok (some cfg) => Except.ok cfg
      | .ok none => bot_fallback bot
      | .error _ => bot_fallback bot)
    = (match spec_choice_rest projects bot_key chat_id with
      | some p => Except.ok (mk_config_from_project p)
      | none => bot_fallback bot) := by
  rw [selection_rest_eq_spec projects bot_key chat_id hinv]
  cases spec_choice_rest projects bot_key chat_id with
  | some p => rfl
  | none => rfl

theorem get_forward_config_eq_resolve_spec (projects : List UserProjectConfig)
    (bot : Option BotInfo) (bot_key chat_id : String)
    (current_project_id : Option String) (hinv : ProjectInvariants projects) :
    get_forward_config_for_user projects bot bot_key chat_id current_project_id
      = resolve_spec projects bot bot_key chat_id current_project_id := by
  have hrest := selection_rest_full_eq projects bot bot_key chat_id hinv
  obtain ⟨hnd, huniq3, huniqd, huniqc⟩ := hinv
  unfold get_forward_config_for_user resolve_spec project_selection spec_project_choice
  by_cases htr : py_truthy current_project_id = true
  · rw [if_pos htr, if_pos htr]
    rw [get_by_project_id, scalar_filter_eq_find _ _ hnd ?htri]
    case htri =>
      intro a ha b hb hpa hpb
      simp only [Bool.and_eq_true, beq_iff_eq] at hpa hpb
      exact huniq3 a ha b hb (by rw [hpa.1.1, hpb.1.1]) (by rw [hpa.1.2, hpb.1.2])
        (by rw [hpa.2, hpb.2])
    rw [find?_and_of_unique projects
      (fun p => p.bot_key == bot_key && p.chat_id == chat_id
        && p.project_id == (current_project_id.getD ""))
      (fun p => p.enabled) hnd ?htri2]
    case htri2 =>
      intro a ha b hb hpa hpb
      simp only [Bool.and_eq_true, beq_iff_eq] at hpa hpb
      exact huniq3 a ha b hb (by rw [hpa.1.1, hpb.1.1]) (by rw [hpa.1.2, hpb.1.2])
        (by rw [hpa.2, hpb.2])
    cases hfind : projects.find? (fun p => p.bot_key == bot_key && p.chat_id == chat_id
        && p.project_id == (current_project_id.getD "")) with
    | some p =>
      dsimp only
      by_cases he : p.enabled = true
      · rw [if_pos he, if_pos he]
      · rw [if_neg he, if_neg he]
        dsimp only
        exact hrest
    | none =>
      dsimp only
      exact hrest
  · rw [if_neg htr, if_neg htr]
    dsimp only
    exact hrest

/-! Dedup cache support lemmas. -/

/-- A positive duplicate check leaves the cache untouched. -/
theorem dup_true_id (c : List (String × Int)) (k : String) (n : Int)
    (h : (_is_duplicate_message c k n).1 = true) :
    (_is_duplicate_message c k n).2 = c := by
  unfold _is_duplicate_message at h ⊢
  cases hl : dict_lookup c k with
  | none => simp [hl] at h
  | some e =>
    simp only [hl] at h ⊢
    by_cases he : e > n
    · simp [he]
    · simp [he] at h

/-- A future-dated cache entry makes the duplicate check fire. -/
theorem dup_of_lookup (c : List (String × Int)) (k : String) (now expiry : Int)
    (hl : dict_lookup c k = some expiry) (hgt : expiry > now) :
    _is_duplicate_message c k now = (true, c) := by
  unfold _is_duplicate_message
  rw [hl]
  simp [hgt]

/-- After the replace arm of dict assignment, the key is found first with the
new value. -/
theorem find_map_insert (k : String) (v : Int) (c : List (String × Int)) :
    c.any (fun e => e.1 == k) = true →
    (c.map (fun e => if e.1 == k then (k, v) else e)).find? (fun e => e.1 == k)
      = some (k, v) := by
  induction c with
  | nil => intro hany; simp at hany
  | cons e tl ih =>
    intro hany
    simp only [List.map_cons]
    by_cases hek : (e.1 == k) = true
    · rw [if_pos hek]
      exact List.find?_cons_of_pos _ (by simp)
    · rw [if_neg hek]
      rw [List.find?_cons_of_neg _ (by simpa using hek)]
      apply ih
      simp only [List.any_cons, hek] at hany
      simpa using hany

/-- Replace arm followed by a filter that keeps the new entry: still found
first with the new value. -/
theorem find_filter_map_insert (k : String) (v : Int) (q : String × Int → Bool)
    (hq : q (k, v) = true) (c : List (String × Int)) :
    c.any (fun e => e.1 == k) = true →
    ((c.map (fun e => if e.1 == k then (k, v) else e)).filter q).find?
      (fun e => e.1 == k) = some (k, v) := by
  induction c with
  | nil => intro hany; simp at hany
  | cons e tl ih =>
    intro hany
    simp only [List.map_cons]
    by_cases hek : (e.1 == k) = true
    · rw [if_pos hek]
      rw [List.filter_cons_of_pos hq]
      exact List.find?_cons_of_pos _ (by simp)
    · rw [if_neg hek]
      have hany2 : tl.any (fun e => e.1 == k) = true := by
        simp only [List.any_cons, hek] at hany
        simpa using hany
      by_cases hqe : q e = true
      · rw [List.filter_cons_of_pos hqe]
        rw [List.find?_cons_of_neg _ (by simpa using hek)]
        exact ih hany2
      · rw [List.filter_cons_of_neg (by simpa using hqe)]
        exact ih hany2

/-- A list with no entry for the key yields no find? hit. -/
theorem find_none_of_not_any (k : String) (c : List (String × Int))
    (hany : c.any (fun e => e.1 == k) = false) :
    c.find? (fun e => e.1 == k) = none := by
  rw [List.find?_eq_none]
  intro x hx
  rw [List.any_eq_false] at hany
  simpa using hany x hx

/-- dict assignment makes the key map to the assigned value. -/
theorem dict_lookup_insert (c : List (String × Int)) (k : String) (v : Int) :
    dict_lookup (dict_insert c k v) k = some v := by
  unfold dict_insert
  by_cases hany : c.any (fun e => e.1 == k) = true
  · rw [if_pos hany]
    unfold dict_lookup
    rw [find_map_insert k v c hany]
    rfl
  · rw [if_neg hany]
    unfold dict_lookup
    rw [List.find?_append]
    rw [find_none_of_not_any k c (Bool.eq_false_iff.mpr hany)]
    simp

/-- dict assignment then a filter keeping the new entry: the key still maps to
the assigned value. -/
theorem dict_lookup_insert_filter (c : List (String × Int)) (k : String) (v : Int)
    (q : String × Int → Bool) (hq : q (k, v) = true) :
    dict_lookup ((dict_insert c k v).filter q) k = some v := by
  unfold dict_insert
  by_cases hany : c.any (fun e => e.1 == k) = true
  · rw [if_pos hany]
    unfold dict_lookup
    rw [find_filter_map_insert k v q hq c hany]
    rfl
  · rw [if_neg hany]
    have hany2 : c.any (fun e => e.1 == k) = false := Bool.eq_false_iff.mpr hany
    unfold dict_lookup
    rw [List.filter_append]
    rw [List.find?_append]
    have h1 : (c.filter q).find? (fun e => e.1 == k) = none := by
      apply find_none_of_not_any
      rw [List.any_eq_false]
      intro x hx
      rw [List.any_eq_false] at hany2
      exact hany2 x (List.mem_of_mem_filter hx)
    rw [h1]
    simp [List.filter_cons, hq]

/-- Marking a message stores an expiry exactly TTL seconds in the future, and
the lazy cleanup never evicts the fresh entry. -/
theorem mark_lookup (c : List (String × Int)) (k : String) (now : Int) :
    dict_lookup (_mark_message_processed c k now) k
      = some (now + _DEDUP_TTL_SECONDS) := by
  unfold _mark_message_processed
  dsimp only
  by_cases hlen :
      (dict_insert c k (now + _DEDUP_TTL_SECONDS)).length ≥ _DEDUP_CLEANUP_THRESHOLD
  · rw [if_pos hlen]
    apply dict_lookup_insert_filter
    simp [_DEDUP_TTL_SECONDS]
  · rw [if_neg hlen]
    exact dict_lookup_insert c k _

/-! Handler stage lemmas: reply accounting and state preservation per stage. -/

/-- A terminal exit of the auth/event/bot stage sends exactly the replies its
outcome prescribes and leaves the other instrumented state alone. -/
theorem stage_auth_inl {env : Env} {input : CallbackData} {st : HandlerState}
    {t : HandlerState × Outcome} (h : stage_auth_event_bot env input st = Sum.inl t) :
    t.1.replies = st.replies + expected_replies t.2 ∧ t.1.forwards = st.forwards ∧
      t.1.acquired_keys = st.acquired_keys ∧ t.1.locks = st.locks ∧
      t.1.dedup = st.dedup := by
  unfold stage_auth_event_bot at h
  try dsimp only at h
  repeat' split at h
  all_goals
    first
    | exact Sum.noConfusion h
    | (injection h with h1
       subst h1
       simp [do_send_reply, expected_replies])

/-- A pass-through of the auth/event/bot stage changes nothing. -/
theorem stage_auth_inr {env : Env} {input : CallbackData} {st : HandlerState}
    {t : HandlerState × BotInfo} (h : stage_auth_event_bot env input st = Sum.inr t) :
    t.1 = st := by
  unfold stage_auth_event_bot at h
  try dsimp only at h
  repeat' split at h
  all_goals
    first
    | exact Sum.noConfusion h
    | (injection h with h1
       subst h1
       rfl)

/-- A terminal exit of the access stage sends exactly the replies its outcome
prescribes and leaves the other instrumented state alone. -/
theorem stage_access_inl {env : Env} {input : CallbackData} {st : HandlerState}
    {b : BotInfo} {t : HandlerState × Outcome}
    (h : stage_access env input st b = Sum.inl t) :
    t.1.replies = st.replies + expected_replies t.2 ∧ t.1.forwards = st.forwards ∧
      t.1.acquired_keys = st.acquired_keys ∧ t.1.locks = st.locks ∧
      t.1.dedup = st.dedup := by
  unfold stage_access at h
  try dsimp only at h
  repeat' split at h
  all_goals
    first
    | exact Sum.noConfusion h
    | (injection h with h1
       subst h1
       simp [do_send_reply, expected_replies])

/-- A pass-through of the access stage changes nothing. -/
theorem stage_access_inr {env : Env} {input : CallbackData} {st : HandlerState}
    {b : BotInfo} {t : HandlerState × BotInfo}
    (h : stage_access env input st b = Sum.inr t) :
    t.1 = st := by
  unfold stage_access at h
  try dsimp only at h
  repeat' split at h
  all_goals
    first
    | exact Sum.noConfusion h
    | (injection h with h1
       subst h1
       rfl)

/-- A terminal exit of the content/commands stage sends exactly the replies
its outcome prescribes and leaves the other instrumented state alone. -/
theorem stage_content_inl {env : Env} {input : CallbackData} {st : HandlerState}
    {b : BotInfo} {t : HandlerState × Outcome}
    (h : stage_content_commands env input st b = Sum.inl t) :
    t.1.replies = st.replies + expected_replies t.2 ∧ t.1.forwards = st.forwards ∧
      t.1.acquired_keys = st.acquired_keys ∧ t.1.locks = st.locks ∧
      t.1.dedup = st.dedup := by
  unfold stage_content_commands at h
  try dsimp only at h
  repeat' split at h
  all_goals
    first
    | exact Sum.noConfusion h
    | (injection h with h1
       subst h1
       simp [do_send_reply, expected_replies])

/-- A pass-through of the content/commands stage changes nothing. -/
theorem stage_content_inr {env : Env} {input : CallbackData} {st st2 : HandlerState}
    {b : BotInfo} (h : stage_content_commands env input st b = Sum.inr st2) :
    st2 = st := by
  unfold stage_content_commands at h
  try dsimp only at h
  repeat' split at h
  all_goals
    first
    | exact Sum.noConfusion h
    | (injection h with h1
       subst h1
       rfl)

/-- A terminal exit of the slash stage sends exactly the replies its outcome
prescribes; only the session table may change besides. -/
theorem stage_slash_inl {env : Env} {input : CallbackData} {tick : Nat}
    {st : HandlerState} {b : BotInfo} {t : HandlerState × Outcome}
    (h : stage_slash env input tick st b = Sum.inl t) :
    t.1.replies = st.replies + expected_replies t.2 ∧ t.1.forwards = st.forwards ∧
      t.1.acquired_keys = st.acquired_keys ∧ t.1.locks = st.locks ∧
      t.1.dedup = st.dedup := by
  unfold stage_slash at h
  try dsimp only at h
  repeat' split at h
  all_goals
    first
    | exact Sum.noConfusion h
    | (injection h with h1
       subst h1
       simp [do_send_reply, expected_replies])

/-- A pass-through of the slash stage keeps the instrumented counters, the
locks, the dedup cache and the project table; only the session table may
change. -/
theorem stage_slash_inr {env : Env} {input : CallbackData} {tick : Nat}
    {st : HandlerState} {b : BotInfo} {t : HandlerState × String × Option String}
    (h : stage_slash env input tick st b = Sum.inr t) :
    t.1.replies = st.replies ∧ t.1.forwards = st.forwards ∧
      t.1.acquired_keys = st.acquired_keys ∧ t.1.locks = st.locks ∧
      t.1.dedup = st.dedup ∧ t.1.projects = st.projects := by
  unfold stage_slash at h
  try dsimp only at h
  repeat' split at h
  all_goals
    first
    | exact Sum.noConfusion h
    | (injection h with h1
       subst h1
       simp)

/-- A terminal exit of the dedup core step sends no reply: duplicates are
dropped silently. -/
theorem stage_dedup_core_inl {env : Env} {input : CallbackData} {now : Int}
    {st : HandlerState} {b : BotInfo} {eu : String} {content : Option String}
    {qs : Option UserSession} {t : HandlerState × Outcome}
    (h : stage_session_dedup_core env input now st b eu content qs = Sum.inl t) :
    t.1.replies = st.replies + expected_replies t.2 ∧ t.1.forwards = st.forwards ∧
      t.1.acquired_keys = st.acquired_keys ∧ t.1.locks = st.locks := by
  unfold stage_session_dedup_core at h
  try dsimp only at h
  repeat' split at h
  all_goals
    first
    | exact Sum.noConfusion h
    | (injection h with h1
       subst h1
       simp [expected_replies])

/-- A pass-through of the dedup core step keeps the counters, the locks, the
project table and the session table; only the dedup cache changes. -/
theorem stage_dedup_core_inr {env : Env} {input : CallbackData} {now : Int}
    {st : HandlerState} {b : BotInfo} {eu : String} {content : Option String}
    {qs : Option UserSession} {t : HandlerState × Option String × Option String}
    (h : stage_session_dedup_core env input now st b eu content qs = Sum.inr t) :
    t.1.replies = st.replies ∧ t.1.forwards = st.forwards ∧
      t.1.acquired_keys = st.acquired_keys ∧ t.1.locks = st.locks ∧
      t.1.projects = st.projects ∧ t.1.sessions = st.sessions := by
  unfold stage_session_dedup_core at h
  try dsimp only at h
  repeat' split at h
  all_goals
    first
    | exact Sum.noConfusion h
    | (injection h with h1
       subst h1
       simp)

/-- A terminal exit of the session/dedup stage sends exactly the replies its
outcome prescribes: duplicates are dropped silently and lookup errors escape
to the top-level handler. -/
theorem stage_dedup_inl {env : Env} {input : CallbackData} {now : Int} {tick : Nat}
    {st : HandlerState} {b : BotInfo} {eu : String} {content : Option String}
    {t : HandlerState × Outcome}
    (h : stage_session_dedup env input now tick st b eu content = Sum.inl t) :
    t.1.replies = st.replies + expected_replies t.2 ∧ t.1.forwards = st.forwards ∧
      t.1.acquired_keys = st.acquired_keys ∧ t.1.locks = st.locks := by
  unfold stage_session_dedup at h
  try dsimp only at h
  repeat' split at h
  all_goals
    first
    | exact Sum.noConfusion h
    | (injection h with h1
       subst h1
       simp [expected_replies])
    | simpa using stage_dedup_core_inl h

/-- A pass-through of the session/dedup stage keeps the counters, the locks
and the project table; the dedup cache and session table may change. -/
theorem stage_dedup_inr {env : Env} {input : CallbackData} {now : Int} {tick : Nat}
    {st : HandlerState} {b : BotInfo} {eu : String} {content : Option String}
    {t : HandlerState × Option String × Option String}
    (h : stage_session_dedup env input now tick st b eu content = Sum.inr t) :
    t.1.replies = st.replies ∧ t.1.forwards = st.forwards ∧
      t.1.acquired_keys = st.acquired_keys ∧ t.1.locks = st.locks ∧
      t.1.projects = st.projects := by
  unfold stage_session_dedup at h
  try dsimp only at h
  repeat' split at h
  all_goals
    first
    | exact Sum.noConfusion h
    | (injection h with h1
       subst h1
       simp)
    | (have hc := stage_dedup_core_inr h
       simp only at hc
       exact ⟨hc.1, hc.2.1, hc.2.2.1, hc.2.2.2.1, hc.2.2.2.2.1⟩)

/-- A terminal exit of the target/lock stage sends exactly the replies its
outcome prescribes and leaves counters, acquired keys and dedup alone. -/
theorem stage_lock_inl {env : Env} {input : CallbackData} {now : Int}
    {st : HandlerState} {b : BotInfo} {content : Option String}
    {csid : Option String} {t : HandlerState × Outcome}
    (h : stage_target_lock env input now st b content csid = Sum.inl t) :
    t.1.replies = st.replies + expected_replies t.2 ∧ t.1.forwards = st.forwards ∧
      t.1.acquired_keys = st.acquired_keys ∧ t.1.dedup = st.dedup := by
  unfold stage_target_lock at h
  try dsimp only at h
  repeat' split at h
  all_goals
    first
    | exact Sum.noConfusion h
    | (injection h with h1
       subst h1
       simp [do_send_reply, expected_replies])

/-- A pass-through of the target/lock stage reports the lock acquired, appends
at most the processing key to the acquired list, and sends no reply. -/
theorem stage_lock_inr {env : Env} {input : CallbackData} {now : Int}
    {st : HandlerState} {b : BotInfo} {content : Option String}
    {csid : Option String} {t : HandlerState × String × Bool}
    (h : stage_target_lock env input now st b content csid = Sum.inr t) :
    t.1.replies = st.replies ∧ t.1.forwards = st.forwards ∧
      t.1.dedup = st.dedup ∧ t.2.2 = true ∧
      (t.1.acquired_keys = st.acquired_keys ∨
        t.1.acquired_keys = st.acquired_keys ++ [t.2.1]) := by
  unfold stage_target_lock at h
  try dsimp only at h
  repeat' split at h
  all_goals
    first
    | exact Sum.noConfusion h
    | (injection h with h1
       subst h1
       simp)

/-- The forward stage: exactly one forward attempt, replies per outcome, the
acquired-key list and the dedup cache untouched, and the finally arm releases
the processing key whenever the lock was acquired. -/
theorem stage_forward_spec {env : Env} {input : CallbackData} {tick : Nat}
    {st : HandlerState} {b : BotInfo} {eu : String} {content : Option String}
    {cpid : Option String} {key : String} {acq : Bool} {t : HandlerState × Outcome}
    (h : stage_forward env input tick st b eu content cpid key acq = t) :
    t.1.replies = st.replies + expected_replies t.2 ∧
      t.1.forwards = st.forwards + 1 ∧
      t.1.acquired_keys = st.acquired_keys ∧ t.1.dedup = st.dedup ∧
      (acq = true → lock_held t.1.locks key = false) ∧
      (acq = false → t.1.locks = st.locks) := by
  unfold stage_forward at h
  try dsimp only at h
  repeat' split at h
  all_goals
    (subst h
     simp_all [do_send_reply, expected_replies, release_not_held])

/-- Reply accounting for the whole pipeline: every run sends exactly the
number of send_reply calls its terminal outcome prescribes. -/
theorem handle_callback_reply_count (env : Env) (input : CallbackData) (now : Int)
    (tick : Nat) (st : HandlerState) :
    (handle_callback env input now tick st).1.replies
      = st.replies + expected_replies (handle_callback env input now tick st).2 := by
  unfold handle_callback
  cases h1 : stage_auth_event_bot env input st with
  | inl t =>
    dsimp only
    exact (stage_auth_inl h1).1
  | inr c1 =>
    obtain ⟨st1, bot1⟩ := c1
    dsimp only
    have e0 : st1 = st := stage_auth_inr h1
    have e1 : st1.replies = st.replies := by rw [e0]
    cases h2 : stage_access env input st1 bot1 with
    | inl t =>
      dsimp only
      have h := (stage_access_inl h2).1
      omega
    | inr c2 =>
      obtain ⟨st2, bot2⟩ := c2
      dsimp only
      have e0b : st2 = st1 := stage_access_inr h2
      have e2 : st2.replies = st1.replies := by rw [e0b]
      cases h3 : stage_content_commands env input st2 bot2 with
      | inl t =>
        dsimp only
        have h := (stage_content_inl h3).1
        omega
      | inr st3 =>
        dsimp only
        have e0c : st3 = st2 := stage_content_inr h3
        have e3 : st3.replies = st2.replies := by rw [e0c]
        cases h4 : stage_slash env input tick st3 bot2 with
        | inl t =>
          dsimp only
          have h := (stage_slash_inl h4).1
          omega
        | inr c4 =>
          obtain ⟨st4, eu, cont⟩ := c4
          dsimp only
          have e4 : st4.replies = st3.replies := (stage_slash_inr h4).1
          cases h5 : stage_session_dedup env input now tick st4 bot2 eu cont with
          | inl t =>
            dsimp only
            have h := (stage_dedup_inl h5).1
            omega
          | inr c5 =>
            obtain ⟨st5, csid, cpid⟩ := c5
            dsimp only
            have e5 : st5.replies = st4.replies := (stage_dedup_inr h5).1
            cases h6 : stage_target_lock env input now st5 bot2 cont csid with
            | inl t =>
              dsimp only
              have h := (stage_lock_inl h6).1
              omega
            | inr c6 =>
              obtain ⟨st6, key, acq⟩ := c6
              dsimp only
              have e6 : st6.replies = st5.replies := (stage_lock_inr h6).1
              obtain ⟨hr, -, -, -, -, -⟩ := stage_forward_spec
                (Eq.refl (stage_forward env input tick st6 bot2 eu cont cpid key acq))
              omega

/-- Lock hygiene for the whole pipeline: starting with no instrumented
acquisitions, every processing key recorded as acquired during the run is no
longer held when the run ends. -/
theorem handle_callback_releases (env : Env) (input : CallbackData) (now : Int)
    (tick : Nat) (st : HandlerState) (k : String)
    (hfresh : st.acquired_keys = [])
    (hk : k ∈ (handle_callback env input now tick st).1.acquired_keys) :
    lock_held (handle_callback env input now tick st).1.locks k = false := by
  unfold handle_callback at hk ⊢
  cases h1 : stage_auth_event_bot env input st with
  | inl t =>
    rw [h1] at hk
    dsimp only at hk ⊢
    rw [(stage_auth_inl h1).2.2.1, hfresh] at hk
    exact absurd hk (List.not_mem_nil k)
  | inr c1 =>
    obtain ⟨st1, bot1⟩ := c1
    rw [h1] at hk
    dsimp only at hk ⊢
    have e0 : st1 = st := stage_auth_inr h1
    have e1 : st1.acquired_keys = [] := by rw [e0, hfresh]
    cases h2 : stage_access env input st1 bot1 with
    | inl t =>
      rw [h2] at hk
      dsimp only at hk ⊢
      rw [(stage_access_inl h2).2.2.1, e1] at hk
      exact absurd hk (List.not_mem_nil k)
    | inr c2 =>
      obtain ⟨st2, bot2⟩ := c2
      rw [h2] at hk
      dsimp only at hk ⊢
      have e0b : st2 = st1 := stage_access_inr h2
      have e2 : st2.acquired_keys = [] := by rw [e0b, e1]
      cases h3 : stage_content_commands env input st2 bot2 with
      | inl t =>
        rw [h3] at hk
        dsimp only at hk ⊢
        rw [(stage_content_inl h3).2.2.1, e2] at hk
        exact absurd hk (List.not_mem_nil k)
      | inr st3 =>
        rw [h3] at hk
        dsimp only at hk ⊢
        have e0c : st3 = st2 := stage_content_inr h3
        have e3 : st3.acquired_keys = [] := by rw [e0c, e2]
        cases h4 : stage_slash env input tick st3 bot2 with
        | inl t =>
          rw [h4] at hk
          dsimp only at hk ⊢
          rw [(stage_slash_inl h4).2.2.1, e3] at hk
          exact absurd hk (List.not_mem_nil k)
        | inr c4 =>
          obtain ⟨st4, eu, cont⟩ := c4
          rw [h4] at hk
          dsimp only at hk ⊢
          have e4 : st4.acquired_keys = [] := by
            rw [(stage_slash_inr h4).2.2.1, e3]
          cases h5 : stage_session_dedup env input now tick st4 bot2 eu cont with
          | inl t =>
            rw [h5] at hk
            dsimp only at hk ⊢
            rw [(stage_dedup_inl h5).2.2.1, e4] at hk
            exact absurd hk (List.not_mem_nil k)
          | inr c5 =>
            obtain ⟨st5, csid, cpid⟩ := c5
            rw [h5] at hk
            dsimp only at hk ⊢
            have e5 : st5.acquired_keys = [] := by
              rw [(stage_dedup_inr h5).2.2.1, e4]
            cases h6 : stage_target_lock env input now st5 bot2 cont csid with
            | inl t =>
              rw [h6] at hk
              dsimp only at hk ⊢
              rw [(stage_lock_inl h6).2.2.1, e5] at hk
              exact absurd hk (List.not_mem_nil k)
            | inr c6 =>
              obtain ⟨st6, key, acq⟩ := c6
              rw [h6] at hk
              dsimp only at hk ⊢
              obtain ⟨-, -, -, hacq, hkeys⟩ := stage_lock_inr h6
              obtain ⟨-, -, hka, -, hrel, -⟩ := stage_forward_spec
                (Eq.refl (stage_forward env input tick st6 bot2 eu cont cpid key acq))
              rw [hka] at hk
              cases hkeys with
              | inl hsame =>
                rw [hsame, e5] at hk
                exact absurd hk (List.not_mem_nil k)
              | inr happ =>
                rw [happ, e5] at hk
                have hkk : k = key := by simpa using hk
                subst hkk
                exact hrel hacq

/-! Reduction lemmas for a plain forwarded message: with authentication in
order, a resolvable bot, access granted, non-command content and no quoted
reply, the early stages pass the state through unchanged. -/

theorem pass_auth {env : Env} {input : CallbackData} {bk : String} {bot : BotInfo}
    (ha : env.auth_ok = true)
    (hev : (input.msg_type == "event" || input.msg_type == "enter_chat") = false)
    (hbk : input.bot_key = some bk) (hbk2 : (bk != "") = true)
    (hres : env.resolve_bot_for_key bk = some bot) (s : HandlerState) :
    stage_auth_event_bot env input s = Sum.inr (s, bot) := by
  unfold stage_auth_event_bot
  simp [ha, hev, hbk, hbk2, hres]

theorem pass_access {env : Env} {input : CallbackData} {bot : BotInfo}
    (hreg : bot.is_registered = true) (hacc : env.check_access bot = true)
    (s : HandlerState) :
    stage_access env input s bot = Sum.inr (s, bot) := by
  unfold stage_access
  simp [hreg, hacc]

theorem pass_content {env : Env} {input : CallbackData} {bot : BotInfo} {c : String}
    (hcontent : input.content = some c) (hc : (c != "") = true)
    (hreg : bot.is_registered = true)
    (hbc : env.is_bot_command c = false)
    (hpc : env.is_project_command c = false)
    (htc : env.is_tunnel_command c = false) (s : HandlerState) :
    stage_content_commands env input s bot = Sum.inr s := by
  unfold stage_content_commands
  simp [py_truthy, hcontent, hc, hreg, hbc, hpc, htc]

theorem pass_slash {env : Env} {input : CallbackData} {bot : BotInfo} {c : String}
    {tick : Nat}
    (hcontent : input.content = some c) (hc : (c != "") = true)
    (hsl : env.parse_slash_command c = none) (s : HandlerState) :
    stage_slash env input tick s bot
      = Sum.inr (s, get_effective_user input.from_user_id input.chat_id
          input.chat_type, input.content) := by
  unfold stage_slash
  simp [py_truthy, hcontent, hc, hsl]

theorem pass_dedup_shape {env : Env} {input : CallbackData} {bot : BotInfo}
    {now : Int} {tick : Nat}
    (hq : input.quoted_short_id = none) (s : HandlerState)
    (eu : String) (content : Option String) :
    stage_session_dedup env input now tick s bot eu content
      = stage_session_dedup_core env input now s bot eu content none := by
  unfold stage_session_dedup
  simp [py_truthy, hq]

/-- A marked message delivered again while the cache entry is alive is dropped
as a duplicate: the run ends with the state untouched and no reply, no
forward. -/
theorem handle_duplicate_of_marked {env : Env} {input : CallbackData}
    {bk c : String} {bot : BotInfo}
    (ha : env.auth_ok = true)
    (hev : (input.msg_type == "event" || input.msg_type == "enter_chat") = false)
    (hbk : input.bot_key = some bk) (hbk2 : (bk != "") = true)
    (hres : env.resolve_bot_for_key bk = some bot)
    (hreg : bot.is_registered = true) (hacc : env.check_access bot = true)
    (hcontent : input.content = some c) (hc : (c != "") = true)
    (hbc : env.is_bot_command c = false)
    (hpc : env.is_project_command c = false)
    (htc : env.is_tunnel_command c = false)
    (hsl : env.parse_slash_command c = none)
    (hq : input.quoted_short_id = none)
    (s : HandlerState) (now : Int) (tick : Nat)
    (hdup : (_is_duplicate_message s.dedup
      (_make_dedup_key env.sha256_hex bot.bot_key input.chat_id c input.msg_id)
      now).1 = true) :
    handle_callback env input now tick s = (s, Outcome.duplicate) := by
  unfold handle_callback
  rw [pass_auth ha hev hbk hbk2 hres s]
  dsimp only
  rw [pass_access hreg hacc s]
  dsimp only
  rw [pass_content hcontent hc hreg hbc hpc htc s]
  dsimp only
  rw [pass_slash hcontent hc hsl s]
  dsimp only
  rw [pass_dedup_shape hq s]
  unfold stage_session_dedup_core
  dsimp only
  rw [hcontent]
  dsimp only [Option.getD]
  rw [if_pos hdup]
  dsimp only
  rw [dup_true_id _ _ _ hdup]

/-- A fresh message that passes the dedup check gets marked, and nothing after
the marking touches the dedup cache. -/
theorem handle_marks {env : Env} {input : CallbackData}
    {bk c : String} {bot : BotInfo}
    (ha : env.auth_ok = true)
    (hev : (input.msg_type == "event" || input.msg_type == "enter_chat") = false)
    (hbk : input.bot_key = some bk) (hbk2 : (bk != "") = true)
    (hres : env.resolve_bot_for_key bk = some bot)
    (hreg : bot.is_registered = true) (hacc : env.check_access bot = true)
    (hcontent : input.content = some c) (hc : (c != "") = true)
    (hbc : env.is_bot_command c = false)
    (hpc : env.is_project_command c = false)
    (htc : env.is_tunnel_command c = false)
    (hsl : env.parse_slash_command c = none)
    (hq : input.quoted_short_id = none)
    (s : HandlerState) (now : Int) (tick : Nat)
    (hdup : (_is_duplicate_message s.dedup
      (_make_dedup_key env.sha256_hex bot.bot_key input.chat_id c input.msg_id)
      now).1 = false) :
    (handle_callback env input now tick s).1.dedup
      = _mark_message_processed
          (_is_duplicate_message s.dedup
            (_make_dedup_key env.sha256_hex bot.bot_key input.chat_id c
              input.msg_id) now).2
          (_make_dedup_key env.sha256_hex bot.bot_key input.chat_id c input.msg_id)
          now := by
  unfold handle_callback
  rw [pass_auth ha hev hbk hbk2 hres s]
  dsimp only
  rw [pass_access hreg hacc s]
  dsimp only
  rw [pass_content hcontent hc hreg hbc hpc htc s]
  dsimp only
  rw [pass_slash hcontent hc hsl s]
  dsimp only
  rw [pass_dedup_shape hq s]
  unfold stage_session_dedup_core
  dsimp only
  rw [hcontent]
  dsimp only [Option.getD]
  rw [if_neg (by simp [hdup])]
  dsimp only
  split
  · rename_i t heq
    rw [(stage_lock_inl heq).2.2.2]
  · rename_i st6 key acq heq
    obtain ⟨-, -, -, hd7, -, -⟩ := stage_forward_spec
      (Eq.refl (stage_forward env input tick st6 bot
        (get_effective_user input.from_user_id input.chat_id input.chat_type)
        (some c)
        ((get_active_session s.sessions
            (get_effective_user input.from_user_id input.chat_id input.chat_type)
            input.chat_id bot.bot_key).bind (fun r => r.current_project_id))
        key acq))
    rw [hd7, (stage_lock_inr heq).2.2.1]

/-! Shared helpers for the claim theorems. -/

/-- scalar_one_or_none raises MultipleResultsFound on two or more rows. -/
theorem scalar_many {α : Type} (l : List α) (hl : 2 ≤ l.length) :
    scalar_one_or_none l = .error .multipleResultsFound := by
  match l with
  | [] => simp at hl
  | [x] => simp at hl
  | x :: y :: r => rfl

/-- With an empty short id the generated header is empty, so the chunk
contents of split_and_format_message are exactly the split body parts. -/
theorem split_format_contents_headerless (message : List Char)
    (pn : Option (List Char)) (mb : Nat) :
    (split_and_format_message message [] pn mb).map (fun m => m.content)
      = split_message_content message mb := by
  unfold split_and_format_message
  dsimp only
  rw [List.map_map]
  refine Eq.trans (List.map_congr_left fun ic hic => ?_) (List.enum_map_snd _)
  rfl

/-! Claim theorems. -/

/-- C1 (amended): for every (user_id, chat_id, bot_key) triple, after any
finite sequence of record_session, reset_session, change_session and
set_session_project calls starting from a well-formed state with at most one
active Session of the triple, at most one Session row of the triple has
is_active = true — provided every record_session call whose session id is
already stored for the triple targets the currently active row. Without that
proviso the claim fails: record_session re-activates an inactive historical
session without deactivating the current one (see the counterexample). -/
theorem claim_C1_single_active (db : SessionDb) (now : Nat) (ops : List SessionOp)
    (u c b : String) (hwf : SessionDbWF db) (hok : OpsOK db now ops)
    (hstart : active_count db u c b ≤ 1) :
    active_count (runSessionOps db now ops) u c b ≤ 1 :=
  runSessionOps_preserves ops db now u c b hwf hok hstart

theorem claim_C1_witness :
    (SessionDbWF { rows := [], next_id := 1 } ∧
      OpsOK { rows := [], next_id := 1 } 0
        [SessionOp.record "u" "c" "b" "s1" "m" none] ∧
      active_count { rows := [], next_id := 1 } "u" "c" "b" ≤ 1) ∧
    active_count
      (runSessionOps { rows := [], next_id := 1 } 0
        [SessionOp.record "u" "c" "b" "s1" "m" none]) "u" "c" "b" ≤ 1 :=
  ⟨⟨by constructor <;> simp [SessionDbWF],
      by exact ⟨by intro r hr; simp at hr, trivial⟩,
      by decide⟩,
    claim_C1_single_active { rows := [], next_id := 1 } 0
      [SessionOp.record "u" "c" "b" "s1" "m" none] "u" "c" "b"
      (by constructor <;> simp [SessionDbWF])
      (by exact ⟨by intro r hr; simp at hr, trivial⟩)
      (by decide)⟩

/-- C1 counterexample: from the empty table (zero active sessions of the
triple), recording session s1, then s2 (which deactivates s1), then s1 again
re-activates s1 while s2 stays active, leaving two active rows of the
triple. -/
theorem claim_C1_counterexample :
    active_count { rows := [], next_id := 1 } "u" "c" "b" ≤ 1 ∧
    active_count
      (runSessionOps { rows := [], next_id := 1 } 0
        [SessionOp.record "u" "c" "b" "s1" "m" none,
         SessionOp.record "u" "c" "b" "s2" "m" none,
         SessionOp.record "u" "c" "b" "s1" "m" none]) "u" "c" "b" = 2 := by
  constructor
  · decide
  · decide

/-- C2: while a lock on key k is held (a try_acquire on k just returned true),
any further try_acquire on k returns false; and after release of k, a
subsequent try_acquire on k returns true. -/
theorem claim_C2_lock_exclusion (db : LockDb) (now now2 now3 : Int)
    (k u c b m u2 c2 b2 m2 u3 c3 b3 m3 : String)
    (hacq : (try_acquire db now k u c b m).1 = true) :
    (try_acquire (try_acquire db now k u c b m).2 now2 k u2 c2 b2 m2).1 = false ∧
    (try_acquire (release (try_acquire db now k u c b m).2 k).2 now3
      k u3 c3 b3 m3).1 = true := by
  constructor
  · have hheld := try_acquire_success_held db now k u c b m hacq
    rw [try_acquire_of_held _ now2 k u2 c2 b2 m2 hheld]
  · exact try_acquire_not_held_succeeds _ now3 k u3 c3 b3 m3 (release_not_held _ k)

theorem claim_C2_witness :
    (try_acquire wLock0 0 "k1" "u1" "c1" "b1" "m1").1 = true ∧
    ((try_acquire (try_acquire wLock0 0 "k1" "u1" "c1" "b1" "m1").2 1
        "k1" "u2" "c2" "b2" "m2").1 = false ∧
      (try_acquire (release (try_acquire wLock0 0 "k1" "u1" "c1" "b1" "m1").2
        "k1").2 2 "k1" "u3" "c3" "b3" "m3").1 = true) :=
  ⟨by decide,
    claim_C2_lock_exclusion wLock0 0 1 2 "k1" "u1" "c1" "b1" "m1"
      "u2" "c2" "b2" "m2" "u3" "c3" "b3" "m3" (by decide)⟩

/-- C4: under the database invariants of the user_projects table, config
resolution equals the deterministic priority chain of the specification:
session-pinned enabled project, else enabled default project, else the unique
enabled project, else the earliest-created enabled project, else the
bot-level target URL, else a no-forward-target error. -/
theorem claim_C4_resolver_priority (projects : List UserProjectConfig)
    (bot : Option BotInfo) (bot_key chat_id : String) (cpid : Option String)
    (hinv : ProjectInvariants projects) :
    get_forward_config_for_user projects bot bot_key chat_id cpid
      = resolve_spec projects bot bot_key chat_id cpid :=
  get_forward_config_eq_resolve_spec projects bot bot_key chat_id cpid hinv

theorem wProjects_invariants : ProjectInvariants wProjects := by
  refine ⟨by decide, ?_, ?_, ?_⟩ <;>
  · intro p hp q hq
    simp only [wProjects, List.mem_cons, List.not_mem_nil, or_false] at hp hq
    rcases hp with rfl | rfl <;> rcases hq with rfl | rfl <;> simp

theorem claim_C4_witness :
    (ProjectInvariants wProjects ∧
      get_forward_config_for_user wProjects none "b1" "c1" none
        = resolve_spec wProjects none "b1" "c1" none) ∧
    get_forward_config_for_user wProjects none "b1" "c1" none
      = Except.ok
          { target_url := "http://prod"
            api_key := none
            timeout := 60
            project_id := some "prod"
            project_name := some "prod" } :=
  ⟨⟨wProjects_invariants,
      claim_C4_resolver_priority wProjects none "b1" "c1" none wProjects_invariants⟩,
    rfl⟩

/-- C10: when no stored session of the (user, chat) scope has short_id
exactly equal to the given identifier and two or more sessions of the scope
have a full session_id starting with it, change_session raises
MultipleResultsFound instead of returning one of the matches, and the rolled
back call leaves every row — in particular every is_active flag —
unchanged. -/
theorem claim_C10_ambiguous_prefix (db : SessionDb) (now : Nat)
    (u c sid : String) (bk : Option String)
    (hexact : db.rows.filter (fun r =>
        (r.user_id == u && r.chat_id == c
          && (if py_truthy bk then r.bot_key == bk.getD "" else true))
        && r.short_id == sid) = [])
    (hpref : 2 ≤ (db.rows.filter (fun r =>
        (r.user_id == u && r.chat_id == c
          && (if py_truthy bk then r.bot_key == bk.getD "" else true))
        && sid.data.isPrefixOf r.session_id.data)).length) :
    change_session db now u c sid bk = .error .multipleResultsFound ∧
    applySessionOp db now (SessionOp.change u c sid bk) = db := by
  have hmain : change_session db now u c sid bk = .error .multipleResultsFound := by
    unfold change_session
    dsimp only
    rw [hexact]
    rw [show scalar_one_or_none ([] : List UserSession) = Except.ok none from rfl]
    dsimp only
    rw [scalar_many _ hpref]
  refine ⟨hmain, ?_⟩
  simp only [applySessionOp, hmain]

theorem claim_C10_witness :
    (wDbC10.rows.filter (fun r =>
        (r.user_id == "u" && r.chat_id == "c"
          && (if py_truthy (some "b") then r.bot_key == (some "b").getD "" else true))
        && r.short_id == "abc1") = [] ∧
      2 ≤ (wDbC10.rows.filter (fun r =>
        (r.user_id == "u" && r.chat_id == "c"
          && (if py_truthy (some "b") then r.bot_key == (some "b").getD "" else true))
        && "abc1".data.isPrefixOf r.session_id.data)).length) ∧
    (change_session wDbC10 0 "u" "c" "abc1" (some "b")
        = .error .multipleResultsFound ∧
      applySessionOp wDbC10 0 (SessionOp.change "u" "c" "abc1" (some "b")) = wDbC10) :=
  ⟨⟨by decide, by decide⟩,
    claim_C10_ambiguous_prefix wDbC10 0 "u" "c" "abc1" (some "b")
      (by decide) (by decide)⟩

/-- C6 (amended): for every input text each of whose lines fits the effective
per-chunk budget, joining the chunk bodies of the splitter with a newline
between consecutive chunks reproduces the original text exactly; plain
concatenation of the bodies does not, because the newline at each chunk
boundary is dropped by the splitter (see the counterexample). -/
theorem claim_C6_roundtrip (message : List Char) (pn : Option (List Char))
    (h : ∀ l ∈ py_split_newline message, get_string_bytes l ≤ EFFECTIVE_MAX_BYTES) :
    py_join_newline ((split_and_format_message message [] pn
        EFFECTIVE_MAX_BYTES).map (fun m => m.content)) = message := by
  rw [split_format_contents_headerless]
  exact split_message_content_roundtrip message EFFECTIVE_MAX_BYTES h

theorem claim_C6_witness :
    (∀ l ∈ py_split_newline "ab\ncd".toList,
      get_string_bytes l ≤ EFFECTIVE_MAX_BYTES) ∧
    py_join_newline ((split_and_format_message "ab\ncd".toList [] none
        EFFECTIVE_MAX_BYTES).map (fun m => m.content)) = "ab\ncd".toList :=
  ⟨by decide, claim_C6_roundtrip "ab\ncd".toList none (by decide)⟩

set_option maxRecDepth 40000 in
/-- C6 counterexample: a 1896-byte line of four-byte characters followed by a
two-byte line splits into two chunks at the newline; concatenating the chunk
bodies loses the newline at the boundary, so the original text is not
reproduced. -/
theorem claim_C6_counterexample :
    ((split_and_format_message (List.replicate 474 '😀' ++ '\n' :: ['b', 'c'])
        [] none EFFECTIVE_MAX_BYTES).map (fun m => m.content)).flatten
      ≠ List.replicate 474 '😀' ++ '\n' :: ['b', 'c'] := by decide

/-- C7 (amended): every chunk produced by split_and_format_message — header
plus body, UTF-8 encoded — is at most the 2048-byte platform hard maximum,
provided the generated header together with its newline separator fits within
the reserved 150-byte budget. The code never checks the header length against
the reserve, so an oversized project name overflows the hard maximum (see the
counterexample). -/
theorem claim_C7_chunk_bound (message short_id : List Char)
    (pn : Option (List Char))
    (hh : ∀ m ∈ split_and_format_message message short_id pn EFFECTIVE_MAX_BYTES,
      get_string_bytes (create_message_header short_id pn m.part_number
        m.total_parts) + 1 ≤ HEADER_RESERVE_BYTES) :
    ∀ m ∈ split_and_format_message message short_id pn EFFECTIVE_MAX_BYTES,
      get_string_bytes m.content ≤ MAX_MESSAGE_BYTES := by
  intro m hm
  have hh1 := hh m hm
  unfold split_and_format_message at hm
  dsimp only at hm
  rw [List.mem_map] at hm
  obtain ⟨ic, hic, hmeq⟩ := hm
  have hpart : ic.2 ∈ split_message_content message EFFECTIVE_MAX_BYTES :=
    List.snd_mem_of_mem_enum hic
  have hbound := split_message_content_bound message EFFECTIVE_MAX_BYTES
    (by decide) ic.2 hpart
  subst hmeq
  dsimp only at hh1 ⊢
  split
  · exact le_trans hbound (by decide)
  · rw [get_string_bytes_append, get_string_bytes_cons]
    have h1 : Char.utf8Size '\n' = 1 := by decide
    have h2 : HEADER_RESERVE_BYTES + EFFECTIVE_MAX_BYTES ≤ MAX_MESSAGE_BYTES := by
      decide
    omega

theorem claim_C7_witness :
    (∀ m ∈ split_and_format_message "hello".toList "abcd1234".toList
        (some "demo".toList) EFFECTIVE_MAX_BYTES,
      get_string_bytes (create_message_header "abcd1234".toList
        (some "demo".toList) m.part_number m.total_parts) + 1
        ≤ HEADER_RESERVE_BYTES) ∧
    (∀ m ∈ split_and_format_message "hello".toList "abcd1234".toList
        (some "demo".toList) EFFECTIVE_MAX_BYTES,
      get_string_bytes m.content ≤ MAX_MESSAGE_BYTES) :=
  ⟨by decide,
    claim_C7_chunk_bound "hello".toList "abcd1234".toList (some "demo".toList)
      (by decide)⟩

set_option maxRecDepth 40000 in
/-- C7 counterexample: with a 2040-byte project name the single chunk of a
two-byte message carries a header of more than 2050 bytes, so the chunk
exceeds the 2048-byte platform hard maximum — the header is never measured
against the 150-byte reserve. -/
theorem claim_C7_counterexample :
    ∃ m ∈ split_and_format_message "hi".toList "abcd1234".toList
        (some (List.replicate 510 '😀')) EFFECTIVE_MAX_BYTES,
      MAX_MESSAGE_BYTES < get_string_bytes m.content := by decide

/-- C5: for every inbound message for which the forward lock is acquired
during the run (instrumented in acquired_keys, starting from a run with no
prior acquisitions), the lock is no longer held when handling of that message
finishes, on every exit path — success, failure, or exception raised in any
step performed after acquisition. -/
theorem claim_C5_lock_released (env : Env) (input : CallbackData) (now : Int)
    (tick : Nat) (st : HandlerState) (k : String)
    (hfresh : st.acquired_keys = [])
    (hk : k ∈ (handle_callback env input now tick st).1.acquired_keys) :
    lock_held (handle_callback env input now tick st).1.locks k = false :=
  handle_callback_releases env input now tick st k hfresh hk

theorem claim_C5_witness :
    (wSt0.acquired_keys = [] ∧
      "u1:b1" ∈ (handle_callback wEnv wInput 0 0 wSt0).1.acquired_keys) ∧
    lock_held (handle_callback wEnv wInput 0 0 wSt0).1.locks "u1:b1" = false :=
  ⟨⟨rfl, by decide⟩,
    claim_C5_lock_released wEnv wInput 0 0 wSt0 "u1:b1" rfl (by decide)⟩

/-- C8: the processing key used for the forward lock is
compute_processing_key: the agent session id already known for the message
when there is one, else chat_id:bot_key for group chats, else
user_id:bot_key for direct chats. compute_processing_key and
get_effective_user are absent from src/forward_service/session_manager.py and
are modelled from the specification, pinned by
src/tests/test_processing_session.py. -/
theorem claim_C8_processing_key (env : Env) (input : CallbackData) (now : Int)
    (st : HandlerState) (bot : BotInfo) (content : Option String)
    (csid : Option String) (t : HandlerState × String × Bool)
    (h : stage_target_lock env input now st bot content csid = Sum.inr t) :
    t.2.1 = compute_processing_key csid input.from_user_id input.chat_id
      bot.bot_key input.chat_type ∧
    (py_truthy csid = true → t.2.1 = csid.getD "") ∧
    (py_truthy csid = false → input.chat_type = "group" →
      t.2.1 = input.chat_id ++ ":" ++ bot.bot_key) ∧
    (py_truthy csid = false → input.chat_type ≠ "group" →
      t.2.1 = input.from_user_id ++ ":" ++ bot.bot_key) := by
  have hkey : t.2.1 = compute_processing_key csid input.from_user_id input.chat_id
      bot.bot_key input.chat_type := by
    unfold stage_target_lock at h
    try dsimp only at h
    repeat' split at h
    all_goals
      first
      | exact Sum.noConfusion h
      | (injection h with h1
         subst h1
         rfl)
  refine ⟨hkey, ?_, ?_, ?_⟩
  · intro ht
    rw [hkey]
    unfold compute_processing_key
    rw [if_pos ht]
  · intro hf hg
    rw [hkey]
    unfold compute_processing_key
    rw [if_neg (by simp [hf]), if_pos hg]
  · intro hf hg
    rw [hkey]
    unfold compute_processing_key
    rw [if_neg (by simp [hf]), if_neg hg]

theorem claim_C8_witness :
    stage_target_lock wEnv wInput 0 wSt0 wBot (some "hello") none
      = Sum.inr (wStLocked, "u1:b1", true) ∧
    "u1:b1" = compute_processing_key none "u1" "c1" "b1" "single" :=
  ⟨by decide,
    (claim_C8_processing_key wEnv wInput 0 wSt0 wBot (some "hello") none
      (wStLocked, "u1:b1", true) (by decide)).1⟩

/-- C9 (amended): every run sends exactly the number of replies its terminal
outcome prescribes: one for every user-visible terminal error and for
success, zero for the silent drops (unauthorized requests, ignored event
types, empty content, duplicate deliveries) — and, contrary to the claim,
zero for an unexpected exception reaching the top-level handler, which
returns errcode -1 without sending the temporarily-unavailable reply (see the
counterexample). -/
theorem claim_C9_reply_accounting (env : Env) (input : CallbackData) (now : Int)
    (tick : Nat) (st : HandlerState) :
    (handle_callback env input now tick st).1.replies
      = st.replies + expected_replies (handle_callback env input now tick st).2 :=
  handle_callback_reply_count env input now tick st

/-- C9 counterexample: a run in which the forward call raises an unexpected
exception terminates in the top-level except arm (internalError, an error
terminal that is not a duplicate delivery) with zero replies sent. -/
theorem claim_C9_counterexample :
    (handle_callback wEnvErr wInput 0 0 wSt0).2 = Outcome.internalError ∧
    is_error_outcome (handle_callback wEnvErr wInput 0 0 wSt0).2 = true ∧
    (handle_callback wEnvErr wInput 0 0 wSt0).2 ≠ Outcome.duplicate ∧
    (handle_callback wEnvErr wInput 0 0 wSt0).1.replies = wSt0.replies := by
  refine ⟨by decide, by decide, by decide, by decide⟩

/-- C3: for an inbound non-command message, delivering the same message a
second time within the 120-second TTL window results in exactly one forward
attempt: the second delivery is recognized as a duplicate and dropped with
the state unchanged — no forward, no reply. -/
theorem claim_C3_dedup_window (env : Env) (input : CallbackData)
    (bk c : String) (bot : BotInfo) (t1 t2 : Int) (tick1 tick2 : Nat)
    (st0 : HandlerState)
    (ha : env.auth_ok = true)
    (hev : (input.msg_type == "event" || input.msg_type == "enter_chat") = false)
    (hbk : input.bot_key = some bk) (hbk2 : (bk != "") = true)
    (hres : env.resolve_bot_for_key bk = some bot)
    (hreg : bot.is_registered = true) (hacc : env.check_access bot = true)
    (hcontent : input.content = some c) (hc : (c != "") = true)
    (hbc : env.is_bot_command c = false)
    (hpc : env.is_project_command c = false)
    (htc : env.is_tunnel_command c = false)
    (hsl : env.parse_slash_command c = none)
    (hq : input.quoted_short_id = none)
    (hfresh : (_is_duplicate_message st0.dedup
      (_make_dedup_key env.sha256_hex bot.bot_key input.chat_id c input.msg_id)
      t1).1 = false)
    (hwin : t2 < t1 + _DEDUP_TTL_SECONDS) :
    handle_callback env input t2 tick2 (handle_callback env input t1 tick1 st0).1
      = ((handle_callback env input t1 tick1 st0).1, Outcome.duplicate) := by
  have hmark := handle_marks ha hev hbk hbk2 hres hreg hacc hcontent hc hbc hpc
    htc hsl hq st0 t1 tick1 hfresh
  have hlook : dict_lookup (handle_callback env input t1 tick1 st0).1.dedup
      (_make_dedup_key env.sha256_hex bot.bot_key input.chat_id c input.msg_id)
      = some (t1 + _DEDUP_TTL_SECONDS) := by
    rw [hmark]
    exact mark_lookup _ _ _
  have hdup2 : (_is_duplicate_message
      (handle_callback env input t1 tick1 st0).1.dedup
      (_make_dedup_key env.sha256_hex bot.bot_key input.chat_id c input.msg_id)
      t2).1 = true := by
    rw [dup_of_lookup _ _ _ _ hlook (by omega)]
  exact handle_duplicate_of_marked ha hev hbk hbk2 hres hreg hacc hcontent hc hbc
    hpc htc hsl hq _ t2 tick2 hdup2

theorem claim_C3_witness :
    ((_is_duplicate_message wSt0.dedup
        (_make_dedup_key wEnv.sha256_hex wBot.bot_key wInput.chat_id "hello"
          wInput.msg_id) 0).1 = false ∧
      (50 : Int) < 0 + _DEDUP_TTL_SECONDS) ∧
    handle_callback wEnv wInput 50 1 (handle_callback wEnv wInput 0 0 wSt0).1
      = ((handle_callback wEnv wInput 0 0 wSt0).1, Outcome.duplicate) :=
  ⟨⟨rfl, by decide⟩,
    claim_C3_dedup_window wEnv wInput "b1" "hello" wBot 0 50 0 1 wSt0 rfl rfl rfl
      rfl rfl rfl rfl rfl rfl rfl rfl rfl rfl rfl rfl (by decide)⟩
